import Mathlib

/-!
A verification development for the core type checker of the kailua
repository (a gradual type checker for a Lua-family language).

The sources mix three generations of the code base:
* `check.rs` (earliest generation: statement/expression walker),
* `env.rs` + `ty.rs` (middle generation: union-find constraint stores,
  mark solver, shallow type `T` with an expanded `Union`),
* `ty/value.rs` + `ty/union.rs` (latest generation: `T` with `TVar`,
  `Builtin`, `Dyn`, and the `Unioned` representation).

Definitions below are translated from those sources.  Where a piece of the
repository is referenced but its file is absent (the `ty/mod.rs` of the
latest generation, the earliest `env.rs`, and the syntax crate's `ast.rs`),
the corresponding definition is modelled from the specification and says so
in its doc comment.
-/

/-! ## Generic weighted union-find with payloads (`Partitions<T>` in env.rs)

`env.rs` keeps each element as a node with a parent link, a rank and a
payload (`Bound` stores `bound: Option<Ty>`, `MarkInfo` stores a
`MarkValue`).  The `VecMap` container is modelled as an association list
from indices to nodes. -/

structure PNode (α : Type) where
  parent : Nat
  rank : Nat
  payload : α
deriving Repr

/-- The `VecMap<Box<Node>>` of a `Partitions`: an association list keyed by
the element index. -/
abbrev UFMap (α : Type) := List (Nat × PNode α)

/-- `VecMap::get`. -/
def ufLookup (m : UFMap α) (i : Nat) : Option (PNode α) :=
  match m.find? (fun e => e.1 == i) with
  | some e => some e.2
  | none => none

/-- Replace the binding for `i` (or append it). -/
def ufSet (m : UFMap α) (i : Nat) (b : PNode α) : UFMap α :=
  match m with
  | [] => [(i, b)]
  | e :: rest => if e.1 = i then (i, b) :: rest else e :: ufSet rest i b

/-- Largest rank stored in the map (0 for the empty map). -/
def ufMaxRank (m : UFMap α) : Nat :=
  m.foldr (fun e acc => max e.2.rank acc) 0

/-- The parent-chasing loop inside `Partitions::find`.  The source loops
until the current element is its own parent or absent from the map; under
the rank invariant maintained by `union` the chain is finite, and
`ufMaxRank m + 2` steps always suffice, so the fuelled walk below computes
the same root. -/
def ufWalk (m : UFMap α) : Nat → Nat → Nat
  | 0, p => p
  | fuel + 1, p =>
    match ufLookup m p with
    | none => p
    | some b => if b.parent = p then p else ufWalk m fuel b.parent

/-- `Partitions::find` with path compression: the start node's parent is
rewritten to the found root (the source compresses through a `Cell`, so
`find` takes `&self` but still mutates). -/
def ufFind (m : UFMap α) (i : Nat) : Nat × UFMap α :=
  match ufLookup m i with
  | none => (i, m)
  | some b =>
    if b.parent = i then (i, m)
    else
      let r := ufWalk m (ufMaxRank m + 2) b.parent
      (r, ufSet m i { b with parent := r })

/-- `entry(i).or_insert_with(|| Partition::create(i, 0))`: fetch the node,
inserting a fresh self-parented rank-0 node with the given initial payload
when absent. -/
def ufEnsure (m : UFMap α) (init : α) (i : Nat) : PNode α × UFMap α :=
  match ufLookup m i with
  | some b => (b, m)
  | none =>
    let b : PNode α := { parent := i, rank := 0, payload := init }
    (b, ufSet m i b)

/-- `Partitions::union`: union by rank; ties attach the right root below
the left and bump the left root's rank. -/
def ufUnion (m : UFMap α) (init : α) (lhs rhs : Nat) : Nat × UFMap α :=
  let fl := ufFind m lhs
  let fr := ufFind fl.2 rhs
  let l := fl.1
  let r := fr.1
  let m := fr.2
  if l = r then (r, m)
  else
    let el := ufEnsure m init l
    let er := ufEnsure el.2 init r
    let lb := el.1
    let rb := er.1
    let m := er.2
    if lb.rank < rb.rank then
      (r, ufSet m l { lb with parent := r })
    else if rb.rank < lb.rank then
      (l, ufSet m r { rb with parent := l })
    else
      (l, ufSet (ufSet m r { rb with parent := l }) l { lb with rank := lb.rank + 1 })

/-! ## The middle-generation shallow type `T` (ty.rs)

`ty.rs` defines the shallow sum `T`, the expanded representation `Union`
and the per-category lattices `Numbers`, `Strings`, `Tables`, `Functions`.
`HashSet<i32>` / `HashSet<Str>` are modelled as `Finset`; `HashMap` and
`Vec` as association lists and lists (map equality in the model is the
finer list equality, which the claims below do not depend on). -/

mutual

inductive T0 where
  | Dynamic
  | None
  | Nil
  | Boolean
  | True
  | False
  | Number
  | Integer
  | SomeInteger (v : Int)
  | SomeIntegers (s : Finset Int)
  | String
  | SomeString (s : String)
  | SomeStrings (s : Finset String)
  | Table
  | EmptyTable
  | SomeRecord (fields : List (String × T0))
  | SomeTuple (fields : List T0)
  | SomeArray (t : T0)
  | SomeMap (k : T0) (v : T0)
  | Function
  | SomeFunction (f : List Function0)
  | Union (u : Union0)

inductive Function0 where
  | mk (args : Seq0) (returns : Seq0)

inductive Seq0 where
  | mk (head : List T0) (tail : Option T0)

inductive Numbers0 where
  | nnone
  | someInt (s : Finset Int)
  | int
  | all

inductive Strings0 where
  | snone
  | someStr (s : Finset String)
  | all

inductive Tables0 where
  | tnone
  | empty
  | record (fields : List (String × T0))
  | tuple (fields : List T0)
  | array (t : T0)
  | map (k : T0) (v : T0)
  | all

inductive Functions0 where
  | fnone
  | someFn (fs : List (List Function0))
  | all

inductive Union0 where
  | mk (hasDynamic hasNil hasTrue hasFalse : Bool)
       (numbers : Numbers0) (strings : Strings0)
       (tables : Tables0) (functions : Functions0)

end

def Union0.hasDynamic : Union0 → Bool | .mk d _ _ _ _ _ _ _ => d
def Union0.hasNil : Union0 → Bool | .mk _ n _ _ _ _ _ _ => n
def Union0.hasTrue : Union0 → Bool | .mk _ _ t _ _ _ _ _ => t
def Union0.hasFalse : Union0 → Bool | .mk _ _ _ f _ _ _ _ => f
def Union0.numbers : Union0 → Numbers0 | .mk _ _ _ _ n _ _ _ => n
def Union0.strings : Union0 → Strings0 | .mk _ _ _ _ _ s _ _ => s
def Union0.tables : Union0 → Tables0 | .mk _ _ _ _ _ _ t _ => t
def Union0.functions : Union0 → Functions0 | .mk _ _ _ _ _ _ _ f => f

/-- `Union::from(ty)`: fill exactly one category from the shallow type
(`T::Union(u)` returns `u` unchanged). -/
def Union0.from (ty : T0) : Union0 :=
  match ty with
  | .Dynamic => .mk true false false false .nnone .snone .tnone .fnone
  | .None => .mk false false false false .nnone .snone .tnone .fnone
  | .Nil => .mk false true false false .nnone .snone .tnone .fnone
  | .Boolean => .mk false false true true .nnone .snone .tnone .fnone
  | .True => .mk false false true false .nnone .snone .tnone .fnone
  | .False => .mk false false false true .nnone .snone .tnone .fnone
  | .Number => .mk false false false false .all .snone .tnone .fnone
  | .Integer => .mk false false false false .int .snone .tnone .fnone
  | .SomeInteger v => .mk false false false false (.someInt {v}) .snone .tnone .fnone
  | .SomeIntegers s => .mk false false false false (.someInt s) .snone .tnone .fnone
  | .String => .mk false false false false .nnone .all .tnone .fnone
  | .SomeString s => .mk false false false false .nnone (.someStr {s}) .tnone .fnone
  | .SomeStrings s => .mk false false false false .nnone (.someStr s) .tnone .fnone
  | .Table => .mk false false false false .nnone .snone .all .fnone
  | .EmptyTable => .mk false false false false .nnone .snone .empty .fnone
  | .SomeRecord fields => .mk false false false false .nnone .snone (.record fields) .fnone
  | .SomeTuple fields => .mk false false false false .nnone .snone (.tuple fields) .fnone
  | .SomeArray t => .mk false false false false .nnone .snone (.array t) .fnone
  | .SomeMap k v => .mk false false false false .nnone .snone (.map k v) .fnone
  | .Function => .mk false false false false .nnone .snone .tnone .all
  | .SomeFunction f => .mk false false false false .nnone .snone .tnone (.someFn [f])
  | .Union u => u

/-- The shallow types produced for the `numbers` category by
`Union::visit` (a singleton set is reported as `SomeInteger`, matching
`set.iter().next()` on a one-element set). -/
def Numbers0.components : Numbers0 → List T0
  | .nnone => []
  | .someInt s =>
    match s.sort (· ≤ ·) with
    | [] => []
    | [v] => [T0.SomeInteger v]
    | _ => [T0.SomeIntegers s]
  | .int => [T0.Integer]
  | .all => [T0.Number]

def Strings0.components : Strings0 → List T0
  | .snone => []
  | .someStr s =>
    match s.sort (· ≤ ·) with
    | [] => []
    | [v] => [T0.SomeString v]
    | _ => [T0.SomeStrings s]
  | .all => [T0.String]

def Tables0.components : Tables0 → List T0
  | .tnone => []
  | .empty => [T0.EmptyTable]
  | .record fields => if fields.isEmpty then [T0.EmptyTable] else [T0.SomeRecord fields]
  | .tuple fields => if fields.isEmpty then [T0.EmptyTable] else [T0.SomeTuple fields]
  | .array t => [T0.SomeArray t]
  | .map k v => [T0.SomeMap k v]
  | .all => [T0.Table]

def Functions0.components : Functions0 → List T0
  | .fnone => []
  | .someFn fs => fs.map (fun f => T0.SomeFunction f)
  | .all => [T0.Function]

/-- `Union::visit` as the list of shallow types passed to the callback, in
the visiting order of the source (a dynamic union short-circuits to
`T::Dynamic`). -/
def Union0.components (u : Union0) : List T0 :=
  if u.hasDynamic then [T0.Dynamic]
  else
    (if u.hasNil then [T0.Nil] else []) ++
    (if u.hasTrue then
       (if u.hasFalse then [T0.Boolean] else [T0.True])
     else if u.hasFalse then [T0.False] else []) ++
    u.numbers.components ++ u.strings.components ++
    u.tables.components ++ u.functions.components

/-- `Union::simplify`: a union visiting no component is `T::None`, exactly
one component is unwrapped, otherwise the union is kept. -/
def Union0.simplify (u : Union0) : T0 :=
  match u.components with
  | [] => T0.None
  | [t] => t
  | _ => T0.Union u

/-! ## Structural equality for the middle-generation types

`ty.rs` derives `PartialEq` for `T`; literal sets compare as sets, which
`Finset` equality models.  (Maps are association lists here, so map
equality is the finer list equality; nothing below depends on that.) -/

mutual

def beqT0 : T0 → T0 → Bool
  | .Dynamic, .Dynamic => true
  | .None, .None => true
  | .Nil, .Nil => true
  | .Boolean, .Boolean => true
  | .True, .True => true
  | .False, .False => true
  | .Number, .Number => true
  | .Integer, .Integer => true
  | .SomeInteger v, .SomeInteger w => v == w
  | .SomeIntegers s, .SomeIntegers t => s == t
  | .String, .String => true
  | .SomeString s, .SomeString t => s == t
  | .SomeStrings s, .SomeStrings t => s == t
  | .Table, .Table => true
  | .EmptyTable, .EmptyTable => true
  | .SomeRecord fs, .SomeRecord gs => beqFieldsT0 fs gs
  | .SomeTuple fs, .SomeTuple gs => beqListT0 fs gs
  | .SomeArray t, .SomeArray u => beqT0 t u
  | .SomeMap k v, .SomeMap k' v' => beqT0 k k' && beqT0 v v'
  | .Function, .Function => true
  | .SomeFunction f, .SomeFunction g => beqListFn0 f g
  | .Union u, .Union w => beqUnion0 u w
  | _, _ => false

def beqListT0 : List T0 → List T0 → Bool
  | [], [] => true
  | x :: xs, y :: ys => beqT0 x y && beqListT0 xs ys
  | _, _ => false

def beqFieldsT0 : List (String × T0) → List (String × T0) → Bool
  | [], [] => true
  | (k, v) :: xs, (k', v') :: ys => k == k' && beqT0 v v' && beqFieldsT0 xs ys
  | _, _ => false

def beqOptT0 : Option T0 → Option T0 → Bool
  | none, none => true
  | some x, some y => beqT0 x y
  | _, _ => false

def beqFn0 : Function0 → Function0 → Bool
  | .mk a r, .mk a' r' => beqSeq0 a a' && beqSeq0 r r'

def beqSeq0 : Seq0 → Seq0 → Bool
  | .mk h t, .mk h' t' => beqListT0 h h' && beqOptT0 t t'

def beqListFn0 : List Function0 → List Function0 → Bool
  | [], [] => true
  | x :: xs, y :: ys => beqFn0 x y && beqListFn0 xs ys
  | _, _ => false

def beqListListFn0 : List (List Function0) → List (List Function0) → Bool
  | [], [] => true
  | x :: xs, y :: ys => beqListFn0 x y && beqListListFn0 xs ys
  | _, _ => false

def beqUnion0 : Union0 → Union0 → Bool
  | .mk d n t f num str tab fn, .mk d' n' t' f' num' str' tab' fn' =>
    d == d' && n == n' && t == t' && f == f' &&
    beqNumbers0 num num' && beqStrings0 str str' &&
    beqTables0 tab tab' && beqFunctions0 fn fn'

def beqNumbers0 : Numbers0 → Numbers0 → Bool
  | .nnone, .nnone => true
  | .someInt s, .someInt t => s == t
  | .int, .int => true
  | .all, .all => true
  | _, _ => false

def beqStrings0 : Strings0 → Strings0 → Bool
  | .snone, .snone => true
  | .someStr s, .someStr t => s == t
  | .all, .all => true
  | _, _ => false

def beqTables0 : Tables0 → Tables0 → Bool
  | .tnone, .tnone => true
  | .empty, .empty => true
  | .record fs, .record gs => beqFieldsT0 fs gs
  | .tuple fs, .tuple gs => beqListT0 fs gs
  | .array t, .array u => beqT0 t u
  | .map k v, .map k' v' => beqT0 k k' && beqT0 v v'
  | .all, .all => true
  | _, _ => false

def beqFunctions0 : Functions0 → Functions0 → Bool
  | .fnone, .fnone => true
  | .someFn fs, .someFn gs => beqListListFn0 fs gs
  | .all, .all => true
  | _, _ => false

end

/-! ## The constraint store (`Constraints` in env.rs)

A `Constraints` is a union-find over type variables whose nodes carry an
optional concrete bound.  `env.rs` is compiled against a generation of the
`ty` module that is absent from the sources, so the store is kept generic
in the bound type; the claims instantiate it at the in-source grammars. -/

structure Constraints (τ : Type) where
  op : String
  bounds : UFMap (Option τ)

def Constraints.new (τ : Type) (op : String) : Constraints τ := ⟨op, []⟩

/-- `is_bound_trivial` for a grammar with a bare `None` and `Dynamic`
constructor: absent bounds and `?`/bottom bounds may always be
overwritten. -/
def isBoundTrivial0 : Option T0 → Bool
  | some t => match t with | T0.None => true | T0.Dynamic => true | _ => false
  | none => true

def beqOptWith (beq : τ → τ → Bool) : Option τ → Option τ → Bool
  | none, none => true
  | some x, some y => beq x y
  | _, _ => false

/-- `Constraints::is`: same variable or same representative (`find`
compresses even here, through the `Cell`). -/
def Constraints.isRel (c : Constraints τ) (lhs rhs : Nat) : Bool × Constraints τ :=
  if lhs = rhs then (true, c)
  else
    let fl := ufFind c.bounds lhs
    let fr := ufFind fl.2 rhs
    (fl.1 == fr.1, { c with bounds := fr.2 })

/-- `Constraints::get_bound(..).and_then(|b| b.bound.clone())`: the stored
bound at the representative, if any. -/
def Constraints.getBound (c : Constraints τ) (lhs : Nat) : Option τ × Constraints τ :=
  let f := ufFind c.bounds lhs
  match ufLookup f.2 f.1 with
  | some b => (b.payload, { c with bounds := f.2 })
  | none => (none, { c with bounds := f.2 })

/-- `Constraints::add_bound`: a trivial stored bound is overwritten; a
non-trivial one must equal the incoming bound, else the call fails. -/
def Constraints.addBound (beq : τ → τ → Bool) (triv : Option τ → Bool)
    (c : Constraints τ) (lhs : Nat) (rhs : τ) : Except String Unit × Constraints τ :=
  let f := ufFind c.bounds lhs
  let e := ufEnsure f.2 none f.1
  let b := e.1
  let m := e.2
  if triv b.payload then
    (.ok (), { c with bounds := ufSet m f.1 { b with payload := some rhs } })
  else if !(beqOptWith beq b.payload (some rhs)) then
    (.error ("variable " ++ toString lhs ++ " cannot have multiple bounds (" ++ c.op ++ ")"),
     { c with bounds := m })
  else
    (.ok (), { c with bounds := m })

/-- `mem::replace(&mut b.bound, None)` on the entry at `i`, when present. -/
def takeBound (m : UFMap (Option τ)) (i : Nat) : Option τ × UFMap (Option τ) :=
  match ufLookup m i with
  | some b => (b.payload, ufSet m i { b with payload := none })
  | none => (none, m)

/-- `Constraints::add_relation`.  Note the match in the source is keyed on
`is_bound_trivial`, so its `(false, _)` arm fires when the LEFT bound is
non-trivial and then keeps the RIGHT bound, and the equality check plus the
error fire when BOTH bounds are trivial; the embedding reproduces this
exactly (see the claims about merge conflicts). -/
def Constraints.addRelation (beq : τ → τ → Bool) (triv : Option τ → Bool)
    (c : Constraints τ) (lhs rhs : Nat) : Except String Unit × Constraints τ :=
  if lhs = rhs then (.ok (), c)
  else
    let fl := ufFind c.bounds lhs
    let fr := ufFind fl.2 rhs
    let l := fl.1
    let r := fr.1
    if l = r then (.ok (), { c with bounds := fr.2 })
    else
      let tl := takeBound fr.2 l
      let tr := takeBound tl.2 r
      let lhsbound := tl.1
      let rhsbound := tr.1
      let m := tr.2
      let finish : Option τ → Except String Unit × Constraints τ := fun bound =>
        let u := ufUnion m none l r
        let m2 :=
          if triv bound then u.2
          else
            match ufLookup u.2 u.1 with
            | some b => ufSet u.2 u.1 { b with payload := bound }
            | none => u.2
        (.ok (), { c with bounds := m2 })
      match triv lhsbound, triv rhsbound with
      | false, _ => finish rhsbound
      | true, false => finish lhsbound
      | true, true =>
        if beqOptWith beq lhsbound rhsbound then finish lhsbound
        else
          (.error ("variables " ++ toString lhs ++ "/" ++ toString rhs ++
                   " cannot have multiple bounds (" ++ c.op ++ ")"),
           { c with bounds := m })

/-! ## Subtyping and equality on the middle-generation types

`env.rs` calls `assert_sub` / `assert_eq` on stored bounds, but the `ty`
module of its generation is absent from the sources. -/

def assocFind (l : List (String × T0)) (k : String) : Option T0 :=
  match l.find? (fun e => e.1 == k) with
  | some e => some e.2
  | none => none

/-- Modelled from the spec: the structural subtype check of `env.rs`'s
generation of the `ty` module, which is missing from the sources
(section 4.2 of the spec: `Dynamic` is compatible in both directions,
`None` is a subtype of everything, tags map to their set-theoretic
counterparts, literal sets compare by membership or subset, records use
width subtyping, tuples embed into arrays, arrays into integer-keyed
maps, functions are contravariant in arguments and covariant in returns,
a union on the left decomposes into all components and one on the right
into some component).  The types here contain no type variables, so the
check is pure.  Recursion is bounded by an internal step count that
strictly decreases on structurally smaller arguments and therefore never
runs out. -/
def subT0Aux : Nat → T0 → T0 → Bool
  | 0, _, _ => false
  | fuel + 1, a, b =>
    match a, b with
    | .Dynamic, _ => true
    | _, .Dynamic => true
    | .None, _ => true
    | .Union u, rhs => (Union0.components u).all (fun t => subT0Aux fuel t rhs)
    | lhs, .Union u => (Union0.components u).any (fun t => subT0Aux fuel lhs t)
    | .Nil, .Nil => true
    | .Boolean, .Boolean => true
    | .True, .True => true
    | .True, .Boolean => true
    | .False, .False => true
    | .False, .Boolean => true
    | .Number, .Number => true
    | .Integer, .Integer => true
    | .Integer, .Number => true
    | .SomeInteger v, .SomeInteger w => v == w
    | .SomeInteger v, .SomeIntegers s => decide (v ∈ s)
    | .SomeInteger _, .Integer => true
    | .SomeInteger _, .Number => true
    | .SomeIntegers s, .SomeIntegers t => decide (s ⊆ t)
    | .SomeIntegers _, .Integer => true
    | .SomeIntegers _, .Number => true
    | .String, .String => true
    | .SomeString s, .SomeString t => s == t
    | .SomeString s, .SomeStrings t => decide (s ∈ t)
    | .SomeString _, .String => true
    | .SomeStrings s, .SomeStrings t => decide (s ⊆ t)
    | .SomeStrings _, .String => true
    | .EmptyTable, .EmptyTable => true
    | .EmptyTable, .Table => true
    | .EmptyTable, .SomeRecord gs => gs.isEmpty
    | .SomeRecord _, .Table => true
    | .SomeRecord fs, .SomeRecord gs =>
      gs.all (fun e =>
        match assocFind fs e.1 with
        | some v => subT0Aux fuel v e.2
        | none => false)
    | .SomeTuple _, .Table => true
    | .SomeTuple fs, .SomeTuple gs =>
      fs.length == gs.length && (fs.zip gs).all (fun e => subT0Aux fuel e.1 e.2)
    | .SomeTuple fs, .SomeArray v => fs.all (fun t => subT0Aux fuel t v)
    | .SomeTuple fs, .SomeMap k v =>
      subT0Aux fuel .Integer k && fs.all (fun t => subT0Aux fuel t v)
    | .SomeArray _, .Table => true
    | .SomeArray t, .SomeArray u => subT0Aux fuel t u
    | .SomeArray t, .SomeMap k v => subT0Aux fuel .Integer k && subT0Aux fuel t v
    | .SomeMap _ _, .Table => true
    | .SomeMap k v, .SomeMap k' v' => subT0Aux fuel k k' && subT0Aux fuel v v'
    | .Table, .Table => true
    | .Function, .Function => true
    | .SomeFunction _, .Function => true
    | .SomeFunction fs, .SomeFunction gs =>
      -- single signatures are contravariant in arguments and covariant in
      -- returns; an overload list on the left works when some member does,
      -- one on the right when all members do (section 4.2)
      let seqSub : Seq0 → Seq0 → Bool := fun x y =>
        match x, y with
        | .mk h t, .mk h' t' =>
          h.length == h'.length && (h.zip h').all (fun e => subT0Aux fuel e.1 e.2) &&
          (match t, t' with
           | Option.none, Option.none => true
           | some w, some z => subT0Aux fuel w z
           | _, _ => false)
      gs.all (fun g => fs.any (fun f =>
        match f, g with
        | .mk args rets, .mk args' rets' => seqSub args' args && seqSub rets rets'))
    | _, _ => false

mutual
def sizeT0 : T0 → Nat
  | .SomeRecord fs => sizeFields fs + 1
  | .SomeTuple fs => sizeList fs + 1
  | .SomeArray t => sizeT0 t + 1
  | .SomeMap k v => sizeT0 k + sizeT0 v + 1
  | .SomeFunction f => sizeListFn f + 1
  | .Union u => sizeUnion0 u + 1
  | _ => 1
def sizeList : List T0 → Nat
  | [] => 0
  | t :: ts => sizeT0 t + sizeList ts + 1
def sizeFields : List (String × T0) → Nat
  | [] => 0
  | e :: ts => sizeT0 e.2 + sizeFields ts + 1
def sizeFn0 : Function0 → Nat
  | .mk a r => sizeSeq0 a + sizeSeq0 r + 1
def sizeSeq0 : Seq0 → Nat
  | .mk h t => sizeList h + (match t with | some x => sizeT0 x | none => 0) + 1
def sizeListFn : List Function0 → Nat
  | [] => 0
  | f :: fs => sizeFn0 f + sizeListFn fs + 1
def sizeListListFn : List (List Function0) → Nat
  | [] => 0
  | f :: fs => sizeListFn f + sizeListListFn fs + 1
def sizeUnion0 : Union0 → Nat
  | .mk _ _ _ _ _ _ tab fn => sizeTables0 tab + sizeFunctions0 fn + 1
def sizeTables0 : Tables0 → Nat
  | .record fs => sizeFields fs + 1
  | .tuple fs => sizeList fs + 1
  | .array t => sizeT0 t + 1
  | .map k v => sizeT0 k + sizeT0 v + 1
  | _ => 1
def sizeFunctions0 : Functions0 → Nat
  | .someFn fs => sizeListListFn fs + 1
  | _ => 1
end

/-- The spec-modelled subtype check at a step count that always suffices. -/
def subT0 (a b : T0) : Bool := subT0Aux (sizeT0 a + sizeT0 b + 1) a b

/-- Modelled from the spec: the structural `assert_eq` of the missing
generation, with `Dynamic` compatible with everything (section 4.2). -/
def eqT0 (a b : T0) : Bool :=
  match a, b with
  | .Dynamic, _ => true
  | _, .Dynamic => true
  | _, _ => beqT0 a b

/-! ## The mark solver values (env.rs) -/

structure MarkDeps where
  follows : Option Nat
  precedes : Option Nat
  eqTypes : Option (T0 × List T0)

inductive MarkValue where
  | invalid
  | mtrue
  | mfalse
  | unknown (deps : Option MarkDeps)

/-! ## The `Context` (env.rs): three constraint stores plus the mark
partition.  The `println!` tracing of the source is dropped. -/

structure Context0 where
  nextTVar : Nat
  tvarSub : Constraints T0
  tvarSup : Constraints T0
  tvarEq : Constraints T0
  nextMark : Nat
  markInfos : UFMap MarkValue

def Context0.new : Context0 :=
  { nextTVar := 0
    tvarSub := Constraints.new T0 "<:"
    tvarSup := Constraints.new T0 ":>"
    tvarEq := Constraints.new T0 "="
    nextMark := 0
    markInfos := [] }

def Context0.genTVar (ctx : Context0) : Nat × Context0 :=
  (ctx.nextTVar, { ctx with nextTVar := ctx.nextTVar + 1 })

def Context0.genMark (ctx : Context0) : Nat × Context0 :=
  (ctx.nextMark, { ctx with nextMark := ctx.nextMark + 1 })

/-- `Context::assert_tvar_sub`: record the upper bound, then check the
exact bound and the lower bound against it. -/
def Context0.assertTvarSub (ctx : Context0) (lhs : Nat) (rhs : T0) :
    Except String Unit × Context0 :=
  let r := ctx.tvarSub.addBound beqT0 isBoundTrivial0 lhs rhs
  let ctx := { ctx with tvarSub := r.2 }
  match r.1 with
  | .error e => (.error e, ctx)
  | .ok _ =>
    let g1 := ctx.tvarEq.getBound lhs
    let ctx := { ctx with tvarEq := g1.2 }
    match g1.1 with
    | some eb =>
      if subT0 eb rhs then
        let g2 := ctx.tvarSup.getBound lhs
        let ctx := { ctx with tvarSup := g2.2 }
        match g2.1 with
        | some lb =>
          if subT0 lb rhs then (.ok (), ctx) else (.error "sup bound exceeds new sub bound", ctx)
        | none => (.ok (), ctx)
      else (.error "eq bound exceeds new sub bound", ctx)
    | none =>
      let g2 := ctx.tvarSup.getBound lhs
      let ctx := { ctx with tvarSup := g2.2 }
      match g2.1 with
      | some lb =>
        if subT0 lb rhs then (.ok (), ctx) else (.error "sup bound exceeds new sub bound", ctx)
      | none => (.ok (), ctx)

/-- `Context::assert_tvar_sup`. -/
def Context0.assertTvarSup (ctx : Context0) (lhs : Nat) (rhs : T0) :
    Except String Unit × Context0 :=
  let r := ctx.tvarSup.addBound beqT0 isBoundTrivial0 lhs rhs
  let ctx := { ctx with tvarSup := r.2 }
  match r.1 with
  | .error e => (.error e, ctx)
  | .ok _ =>
    let g1 := ctx.tvarEq.getBound lhs
    let ctx := { ctx with tvarEq := g1.2 }
    match g1.1 with
    | some eb =>
      if subT0 rhs eb then
        let g2 := ctx.tvarSub.getBound lhs
        let ctx := { ctx with tvarSub := g2.2 }
        match g2.1 with
        | some ub =>
          if subT0 rhs ub then (.ok (), ctx) else (.error "new sup bound exceeds sub bound", ctx)
        | none => (.ok (), ctx)
      else (.error "new sup bound exceeds eq bound", ctx)
    | none =>
      let g2 := ctx.tvarSub.getBound lhs
      let ctx := { ctx with tvarSub := g2.2 }
      match g2.1 with
      | some ub =>
        if subT0 rhs ub then (.ok (), ctx) else (.error "new sup bound exceeds sub bound", ctx)
      | none => (.ok (), ctx)

/-- `Context::assert_tvar_eq`. -/
def Context0.assertTvarEq (ctx : Context0) (lhs : Nat) (rhs : T0) :
    Except String Unit × Context0 :=
  let r := ctx.tvarEq.addBound beqT0 isBoundTrivial0 lhs rhs
  let ctx := { ctx with tvarEq := r.2 }
  match r.1 with
  | .error e => (.error e, ctx)
  | .ok _ =>
    let g1 := ctx.tvarSub.getBound lhs
    let ctx := { ctx with tvarSub := g1.2 }
    match g1.1 with
    | some ub =>
      if subT0 rhs ub then
        let g2 := ctx.tvarSup.getBound lhs
        let ctx := { ctx with tvarSup := g2.2 }
        match g2.1 with
        | some lb =>
          if subT0 lb rhs then (.ok (), ctx) else (.error "sup bound exceeds new eq bound", ctx)
        | none => (.ok (), ctx)
      else (.error "new eq bound exceeds sub bound", ctx)
    | none =>
      let g2 := ctx.tvarSup.getBound lhs
      let ctx := { ctx with tvarSup := g2.2 }
      match g2.1 with
      | some lb =>
        if subT0 lb rhs then (.ok (), ctx) else (.error "sup bound exceeds new eq bound", ctx)
      | none => (.ok (), ctx)

/-- `Context::assert_tvar_sub_tvar`: a relation in the sub store and the
mirrored relation in the sup store, skipped when already eq-related. -/
def Context0.assertTvarSubTvar (ctx : Context0) (lhs rhs : Nat) :
    Except String Unit × Context0 :=
  let i := ctx.tvarEq.isRel lhs rhs
  let ctx := { ctx with tvarEq := i.2 }
  if i.1 then (.ok (), ctx)
  else
    let r1 := ctx.tvarSub.addRelation beqT0 isBoundTrivial0 lhs rhs
    let ctx := { ctx with tvarSub := r1.2 }
    match r1.1 with
    | .error e => (.error e, ctx)
    | .ok _ =>
      let r2 := ctx.tvarSup.addRelation beqT0 isBoundTrivial0 rhs lhs
      (r2.1, { ctx with tvarSup := r2.2 })

/-- `Context::assert_tvar_eq_tvar` (does not update the sub/sup stores). -/
def Context0.assertTvarEqTvar (ctx : Context0) (lhs rhs : Nat) :
    Except String Unit × Context0 :=
  let r := ctx.tvarEq.addRelation beqT0 isBoundTrivial0 lhs rhs
  (r.1, { ctx with tvarEq := r.2 })

/-- `mem::replace(&mut info.value, MarkValue::Invalid)` on an existing
entry; an absent mark reads as `Unknown(None)`. -/
def takeMarkValue (mi : UFMap MarkValue) (i : Nat) : MarkValue × UFMap MarkValue :=
  match ufLookup mi i with
  | some b => (b.payload, ufSet mi i { b with payload := .invalid })
  | none => (.unknown none, mi)

/-- `MarkDeps::merge` minus the dependency-edge rewriting (which needs the
store): merged eq-types plus merged implication edges.  Two edges on the
same side are the source's `panic!("non-linear deps detected")`. -/
def markDepsMerge (l r : MarkDeps) : Except String MarkDeps :=
  let eqTypes : Except String (Option (T0 × List T0)) :=
    match l.eqTypes, r.eqTypes with
    | none, none => .ok none
    | none, some p => .ok (some p)
    | some p, none => .ok (some p)
    | some (lb, lt), some (rb, rt) =>
      if eqT0 lb rb then .ok (some (lb, lt ++ rt))
      else .error "required base types are not equal"
  match eqTypes with
  | .error e => .error e
  | .ok eqTypes =>
    let mergeMarks : Option Nat → Option Nat → Except String (Option Nat) := fun a b =>
      match a, b with
      | none, none => .ok none
      | none, some m => .ok (some m)
      | some m, none => .ok (some m)
      | some _, some _ => .error "panic: non-linear deps detected"
    match mergeMarks l.follows r.follows with
    | .error e => .error e
    | .ok follows =>
      match mergeMarks l.precedes r.precedes with
      | .error e => .error e
      | .ok precedes => .ok { follows := follows, precedes := precedes, eqTypes := eqTypes }

mutual

/-- `Context::assert_mark_true`: take the representative's value out
(leaving `True`), then run the old value's obligations
(`MarkValue::assert_true` and `MarkDeps::assert_true` are inlined:
a `False` value is a conflict, unknown dependencies assert their
eq-types equal and recursively assert the implied mark). -/
def assertMarkTrue : Nat → Context0 → Nat → Except String Unit × Context0
  | 0, ctx, _ => (.error "fuel exhausted", ctx)
  | fuel + 1, ctx, mark =>
    let f := ufFind ctx.markInfos mark
    let e := ufEnsure f.2 (MarkValue.unknown none) f.1
    let mi := ufSet e.2 f.1 { e.1 with payload := MarkValue.mtrue }
    let ctx := { ctx with markInfos := mi }
    match e.1.payload with
    | .invalid => (.error "panic: self-recursive mark resolution", ctx)
    | .mtrue => (.ok (), ctx)
    | .mfalse => (.error ("mark " ++ toString mark ++ " cannot be true"), ctx)
    | .unknown none => (.ok (), ctx)
    | .unknown (some deps) => markDepsAssertTrue fuel deps ctx

/-- `MarkDeps::assert_true` as a store operation. -/
def markDepsAssertTrue : Nat → MarkDeps → Context0 → Except String Unit × Context0
  | 0, _, ctx => (.error "fuel exhausted", ctx)
  | fuel + 1, deps, ctx =>
    let eqOk :=
      match deps.eqTypes with
      | some (base, others) => others.all (fun t => eqT0 base t)
      | none => true
    if !eqOk then (.error "required types are not equal", ctx)
    else
      match deps.follows with
      | some m => assertMarkTrue fuel ctx m
      | none => (.ok (), ctx)

/-- `Context::assert_mark_false`, symmetric to `assert_mark_true`. -/
def assertMarkFalse : Nat → Context0 → Nat → Except String Unit × Context0
  | 0, ctx, _ => (.error "fuel exhausted", ctx)
  | fuel + 1, ctx, mark =>
    let f := ufFind ctx.markInfos mark
    let e := ufEnsure f.2 (MarkValue.unknown none) f.1
    let mi := ufSet e.2 f.1 { e.1 with payload := MarkValue.mfalse }
    let ctx := { ctx with markInfos := mi }
    match e.1.payload with
    | .invalid => (.error "panic: self-recursive mark resolution", ctx)
    | .mtrue => (.error ("mark " ++ toString mark ++ " cannot be false"), ctx)
    | .mfalse => (.ok (), ctx)
    | .unknown none => (.ok (), ctx)
    | .unknown (some deps) => markDepsAssertFalse fuel deps ctx

/-- `MarkDeps::assert_false` as a store operation. -/
def markDepsAssertFalse : Nat → MarkDeps → Context0 → Except String Unit × Context0
  | 0, _, ctx => (.error "fuel exhausted", ctx)
  | fuel + 1, deps, ctx =>
    match deps.precedes with
    | some m => assertMarkFalse fuel ctx m
    | none => (.ok (), ctx)

/-- `Context::assert_mark_eq`: early checks on the two representatives'
values, then take both values out (leaving `Invalid`), merge the
partitions, compute the merged value (propagating a known value into
dependencies) and store it at the new representative.  The source's
`unreachable!()`, `assert!` and `panic!` arms become errors tagged
`panic:`. -/
def assertMarkEq : Nat → Context0 → Nat → Nat → Except String Unit × Context0
  | 0, ctx, _, _ => (.error "fuel exhausted", ctx)
  | fuel + 1, ctx, lhs, rhs =>
    if lhs = rhs then (.ok (), ctx)
    else
      let f1 := ufFind ctx.markInfos lhs
      let f2 := ufFind f1.2 rhs
      let l := f1.1
      let r := f2.1
      let mi := f2.2
      let ctx := { ctx with markInfos := mi }
      if l = r then (.ok (), ctx)
      else
        let lv := (ufLookup mi l).map (fun b => b.payload)
        let rv := (ufLookup mi r).map (fun b => b.payload)
        match lv, rv with
        | some MarkValue.invalid, _ => (.error "panic: self-recursive mark resolution", ctx)
        | _, some MarkValue.invalid => (.error "panic: self-recursive mark resolution", ctx)
        | some MarkValue.mtrue, some MarkValue.mtrue => (.ok (), ctx)
        | some MarkValue.mtrue, some MarkValue.mfalse =>
          (.error ("mark " ++ toString lhs ++ " (known to be true) and mark " ++
                   toString rhs ++ " (known to be false) cannot never be same"), ctx)
        | some MarkValue.mfalse, some MarkValue.mtrue =>
          (.error ("mark " ++ toString lhs ++ " (known to be false) and mark " ++
                   toString rhs ++ " (known to be true) cannot never be same"), ctx)
        | some MarkValue.mfalse, some MarkValue.mfalse => (.ok (), ctx)
        | _, _ =>
          let t1 := takeMarkValue mi l
          let t2 := takeMarkValue t1.2 r
          let lval := t1.1
          let rval := t2.1
          let u := ufUnion t2.2 (MarkValue.unknown none) l r
          let newRoot := u.1
          let ctx := { ctx with markInfos := u.2 }
          let write : MarkValue → Context0 → Except String Unit × Context0 :=
            fun v ctx =>
              match ufLookup ctx.markInfos newRoot with
              | some b =>
                (.ok (), { ctx with markInfos := ufSet ctx.markInfos newRoot { b with payload := v } })
              | none => (.error "panic: merged mark entry is missing", ctx)
          match lval, rval with
          | .invalid, _ => (.error "panic: unreachable", ctx)
          | _, .invalid => (.error "panic: unreachable", ctx)
          | .mtrue, .mtrue => (.error "panic: unreachable", ctx)
          | .mtrue, .mfalse => (.error "panic: unreachable", ctx)
          | .mfalse, .mtrue => (.error "panic: unreachable", ctx)
          | .mfalse, .mfalse => (.error "panic: unreachable", ctx)
          | .mtrue, .unknown deps =>
            (match deps with
             | some deps =>
               let s := markDepsAssertTrue fuel deps ctx
               match s.1 with
               | .error e => (.error e, s.2)
               | .ok _ => write .mtrue s.2
             | none => write .mtrue ctx)
          | .unknown deps, .mtrue =>
            (match deps with
             | some deps =>
               let s := markDepsAssertTrue fuel deps ctx
               match s.1 with
               | .error e => (.error e, s.2)
               | .ok _ => write .mtrue s.2
             | none => write .mtrue ctx)
          | .mfalse, .unknown deps =>
            (match deps with
             | some deps =>
               let s := markDepsAssertFalse fuel deps ctx
               match s.1 with
               | .error e => (.error e, s.2)
               | .ok _ => write .mfalse s.2
             | none => write .mfalse ctx)
          | .unknown deps, .mfalse =>
            (match deps with
             | some deps =>
               let s := markDepsAssertFalse fuel deps ctx
               match s.1 with
               | .error e => (.error e, s.2)
               | .ok _ => write .mfalse s.2
             | none => write .mfalse ctx)
          | .unknown none, .unknown none => write (.unknown none) ctx
          | .unknown none, .unknown (some deps) => write (.unknown (some deps)) ctx
          | .unknown (some deps), .unknown none => write (.unknown (some deps)) ctx
          | .unknown (some ldeps), .unknown (some rdeps) =>
            -- implication edges between the two merging marks are zeroed
            let ldeps := { ldeps with
              follows := if ldeps.follows = some r then none else ldeps.follows,
              precedes := if ldeps.precedes = some r then none else ldeps.precedes }
            let rdeps := { rdeps with
              follows := if rdeps.follows = some l then none else rdeps.follows,
              precedes := if rdeps.precedes = some l then none else rdeps.precedes }
            match markDepsMerge ldeps rdeps with
            | .error e => (.error e, ctx)
            | .ok deps =>
              -- rewrite the edges of other marks that referred to l or r
              let rewriteFollows : Context0 → Except String Unit × Context0 := fun ctx =>
                match deps.follows with
                | some m =>
                  (match ufLookup ctx.markInfos m with
                   | some b =>
                     (match b.payload with
                      | .unknown (some d) =>
                        if d.precedes = some l || d.precedes = some r then
                          let d2 := { d with precedes := some newRoot }
                          let b2 := { b with payload := MarkValue.unknown (some d2) }
                          (.ok (), { ctx with markInfos := ufSet ctx.markInfos m b2 })
                        else (.error "panic: desynchronized dependency implication", ctx)
                      | _ => (.error "panic: desynchronized dependency implication", ctx))
                   | none => (.error "panic: desynchronized dependency implication", ctx))
                | none => (.ok (), ctx)
              let rewritePrecedes : Context0 → Except String Unit × Context0 := fun ctx =>
                match deps.precedes with
                | some m =>
                  (match ufLookup ctx.markInfos m with
                   | some b =>
                     (match b.payload with
                      | .unknown (some d) =>
                        if d.follows = some l || d.follows = some r then
                          let d2 := { d with follows := some newRoot }
                          let b2 := { b with payload := MarkValue.unknown (some d2) }
                          (.ok (), { ctx with markInfos := ufSet ctx.markInfos m b2 })
                        else (.error "panic: desynchronized dependency implication", ctx)
                      | _ => (.error "panic: desynchronized dependency implication", ctx))
                   | none => (.error "panic: desynchronized dependency implication", ctx))
                | none => (.ok (), ctx)
              let s1 := rewriteFollows ctx
              match s1.1 with
              | .error e => (.error e, s1.2)
              | .ok _ =>
                let s2 := rewritePrecedes s1.2
                match s2.1 with
                | .error e => (.error e, s2.2)
                | .ok _ => write (.unknown (some deps)) s2.2

end

/-! ## Shared evaluation lemmas for the stores -/

theorem ufLookup_ufSet_self (m : UFMap α) (i : Nat) (b : PNode α) :
    ufLookup (ufSet m i b) i = some b := by
  induction m with
  | nil => simp [ufSet, ufLookup]
  | cons e rest ih =>
    by_cases h : e.1 = i
    · simp [ufSet, h, ufLookup]
    · simpa [ufSet, h, ufLookup, List.find?] using ih

theorem ufSet_ufSet_self (m : UFMap α) (i : Nat) (b b' : PNode α) :
    ufSet (ufSet m i b) i b' = ufSet m i b' := by
  induction m with
  | nil => simp [ufSet]
  | cons e rest ih =>
    by_cases h : e.1 = i
    · simp [ufSet, h]
    · simp [ufSet, h, ih]

/-- `add_bound` on a variable that has no entry yet: always succeeds and
stores the bound at the fresh self-rooted node. -/
theorem addBound_fresh (beq : τ → τ → Bool) (triv : Option τ → Bool)
    (c : Constraints τ) (v : Nat) (t : τ)
    (h : ufLookup c.bounds v = none) (ht : triv none = true) :
    c.addBound beq triv v t =
      (.ok (), { c with bounds := ufSet c.bounds v ⟨v, 0, some t⟩ }) := by
  unfold Constraints.addBound ufFind ufEnsure
  simp [h, ht, ufLookup_ufSet_self, ufSet_ufSet_self]

/-- `get_bound` on a variable that has no entry: no stored bound, store
unchanged. -/
theorem getBound_fresh (c : Constraints τ) (v : Nat)
    (h : ufLookup c.bounds v = none) : c.getBound v = (none, c) := by
  unfold Constraints.getBound ufFind
  simp [h]

/-- `get_bound` on a variable that is its own representative. -/
theorem getBound_rooted (c : Constraints τ) (v : Nat) (b : PNode (Option τ))
    (h : ufLookup c.bounds v = some b) (hp : b.parent = v) :
    c.getBound v = (b.payload, c) := by
  unfold Constraints.getBound ufFind
  simp [h, hp]

/-! ## Claim C1: bound merging in `add_relation` -/

def c1store : Constraints T0 := Constraints.new T0 "<:"
def c1r1 := c1store.addBound beqT0 isBoundTrivial0 0 T0.Integer
def c1r2 := c1r1.2.addBound beqT0 isBoundTrivial0 1 T0.String
def c1r3 := c1r2.2.addRelation beqT0 isBoundTrivial0 0 1
def c1u1 := c1store.addBound beqT0 isBoundTrivial0 1 T0.Dynamic
def c1u2 := c1u1.2.addRelation beqT0 isBoundTrivial0 0 1

/-- Claim C1: evaluation of `Constraints::add_relation` at the inputs
where the claim and the code disagree.  Variable 0 carries the
non-trivial bound `integer` and variable 1 the non-trivial bound
`string`; `add_relation(0, 1)` is claimed to fail, yet the code returns
`Ok` and leaves `string` as the merged bound, silently dropping
`integer`.  Conversely, with no bound on 0 and only the trivial bound
`?` on 1 (both trivial, so the claim says the relation must succeed),
the code reports a bound conflict.  The match in `add_relation` tests
`is_bound_trivial` but its arms are written for the opposite polarity. -/
theorem c1_add_relation_merge_eval :
    c1r1.1 = .ok () ∧ c1r2.1 = .ok () ∧
    c1r3.1 = .ok () ∧ (c1r3.2.getBound 0).1 = some T0.String ∧
    c1u1.1 = .ok () ∧ (∃ e, c1u2.1 = .error e) :=
  ⟨rfl, rfl, rfl, rfl, rfl, ⟨_, rfl⟩⟩

/-! ## Claim C2: an exact bound makes later upper bounds subtype checks -/

/-- Claim C2: on a store where the type variable `v` has no prior bounds,
`assert_tvar_eq(v, T)` succeeds, and an immediately following
`assert_tvar_sub(v, U)` succeeds exactly when `T` is a subtype of `U`
(the concrete, type-variable-free subtype check `subT0`). -/
theorem c2_tvar_eq_then_sub_iff (ctx : Context0) (v : Nat) (t u : T0)
    (hsub : ufLookup ctx.tvarSub.bounds v = none)
    (hsup : ufLookup ctx.tvarSup.bounds v = none)
    (heq : ufLookup ctx.tvarEq.bounds v = none) :
    (ctx.assertTvarEq v t).1 = .ok () ∧
    (((ctx.assertTvarEq v t).2.assertTvarSub v u).1 = .ok () ↔ subT0 t u = true) := by
  have e1 := addBound_fresh beqT0 isBoundTrivial0 ctx.tvarEq v t heq rfl
  have step1 : ctx.assertTvarEq v t =
      (.ok (), { ctx with tvarEq :=
        { ctx.tvarEq with bounds := ufSet ctx.tvarEq.bounds v ⟨v, 0, some t⟩ } }) := by
    simp [Context0.assertTvarEq, e1, getBound_fresh _ _ hsub, getBound_fresh _ _ hsup]
  rw [step1]
  refine ⟨rfl, ?_⟩
  have e2 := addBound_fresh beqT0 isBoundTrivial0 ctx.tvarSub v u hsub rfl
  have e3 := getBound_rooted
    ({ ctx.tvarEq with bounds := ufSet ctx.tvarEq.bounds v ⟨v, 0, some t⟩ } : Constraints T0) v
    ⟨v, 0, some t⟩ (ufLookup_ufSet_self ctx.tvarEq.bounds v ⟨v, 0, some t⟩) rfl
  cases h : subT0 t u
  · simp [Context0.assertTvarSub, e2, e3, h]
  · simp [Context0.assertTvarSub, e2, e3, h, getBound_fresh _ _ hsup]

/-- Witness for claim C2 at the fresh context with `v = 0`, `T = integer`,
`U = number`. -/
theorem c2_tvar_eq_then_sub_iff_witness :
    (Context0.new.assertTvarEq 0 T0.Integer).1 = .ok () ∧
    (((Context0.new.assertTvarEq 0 T0.Integer).2.assertTvarSub 0 T0.Number).1 = .ok ()
      ↔ subT0 T0.Integer T0.Number = true) :=
  c2_tvar_eq_then_sub_iff Context0.new 0 T0.Integer T0.Number rfl rfl rfl

/-! ## Claim C6: mark conflicts -/

/-- Claim C6: asserting a mark true whose representative is already known
`False` is an error, and symmetrically for asserting false on a mark known
`True`; `assert_mark_eq` of a mark known `True` and a mark known `False`
is an error, while `assert_mark_eq` of two marks whose known values agree
succeeds. -/
theorem c6_mark_conflicts :
    (∀ (ctx : Context0) (mk r fuel : Nat) (mi : UFMap MarkValue) (b : PNode MarkValue),
       ufFind ctx.markInfos mk = (r, mi) → ufLookup mi r = some b →
       b.payload = MarkValue.mfalse →
       (assertMarkTrue (fuel + 1) ctx mk).1 =
         .error ("mark " ++ toString mk ++ " cannot be true")) ∧
    (∀ (ctx : Context0) (mk r fuel : Nat) (mi : UFMap MarkValue) (b : PNode MarkValue),
       ufFind ctx.markInfos mk = (r, mi) → ufLookup mi r = some b →
       b.payload = MarkValue.mtrue →
       (assertMarkFalse (fuel + 1) ctx mk).1 =
         .error ("mark " ++ toString mk ++ " cannot be false")) ∧
    (∀ (ctx : Context0) (lhs rhs l r fuel : Nat) (m1 m2 : UFMap MarkValue)
       (bl br : PNode MarkValue),
       lhs ≠ rhs →
       ufFind ctx.markInfos lhs = (l, m1) → ufFind m1 rhs = (r, m2) →
       ufLookup m2 l = some bl → bl.payload = MarkValue.mtrue →
       ufLookup m2 r = some br → br.payload = MarkValue.mfalse →
       ∃ e, (assertMarkEq (fuel + 1) ctx lhs rhs).1 = .error e) ∧
    (∀ (ctx : Context0) (lhs rhs l r fuel : Nat) (m1 m2 : UFMap MarkValue)
       (bl br : PNode MarkValue),
       ufFind ctx.markInfos lhs = (l, m1) → ufFind m1 rhs = (r, m2) →
       ufLookup m2 l = some bl → ufLookup m2 r = some br →
       ((bl.payload = MarkValue.mtrue ∧ br.payload = MarkValue.mtrue) ∨
        (bl.payload = MarkValue.mfalse ∧ br.payload = MarkValue.mfalse)) →
       (assertMarkEq (fuel + 1) ctx lhs rhs).1 = .ok ()) := by
  refine ⟨?_, ?_, ?_, ?_⟩
  · intro ctx mk r fuel mi b hf hl hp
    simp [assertMarkTrue, hf, ufEnsure, hl, hp]
  · intro ctx mk r fuel mi b hf hl hp
    simp [assertMarkFalse, hf, ufEnsure, hl, hp]
  · intro ctx lhs rhs l r fuel m1 m2 bl br hne hf1 hf2 hbl hpl hbr hpr
    have hlr : l ≠ r := by
      intro h
      rw [h] at hbl
      rw [hbl] at hbr
      cases hbr
      rw [hpl] at hpr
      cases hpr
    simp [assertMarkEq, hne, hf1, hf2, hlr, hbl, hbr, hpl, hpr]
  · intro ctx lhs rhs l r fuel m1 m2 bl br hf1 hf2 hbl hbr hv
    by_cases hne : lhs = rhs
    · simp [assertMarkEq, hne]
    · by_cases hlr : l = r
      · simp [assertMarkEq, hne, hf1, hf2, hlr]
      · rcases hv with ⟨h1, h2⟩ | ⟨h1, h2⟩ <;>
          simp [assertMarkEq, hne, hf1, hf2, hlr, hbl, hbr, h1, h2]

def c6ctxF : Context0 := (assertMarkFalse 1 Context0.new 0).2
def c6ctxT : Context0 := (assertMarkTrue 1 Context0.new 0).2
def c6ctxTF : Context0 := (assertMarkFalse 1 (assertMarkTrue 1 Context0.new 0).2 1).2
def c6ctxTT : Context0 := (assertMarkTrue 1 (assertMarkTrue 1 Context0.new 0).2 1).2

/-- Witness for claim C6 on concrete mark stores: mark 0 known false then
asserted true; mark 0 known true then asserted false; marks 0/1 known
true/false asserted equal; marks 0/1 both known true asserted equal. -/
theorem c6_mark_conflicts_witness :
    (assertMarkTrue 1 c6ctxF 0).1 = .error ("mark " ++ toString 0 ++ " cannot be true") ∧
    (assertMarkFalse 1 c6ctxT 0).1 = .error ("mark " ++ toString 0 ++ " cannot be false") ∧
    (∃ e, (assertMarkEq 1 c6ctxTF 0 1).1 = .error e) ∧
    (assertMarkEq 1 c6ctxTT 0 1).1 = .ok () :=
  ⟨c6_mark_conflicts.1 c6ctxF 0 0 0 c6ctxF.markInfos ⟨0, 0, MarkValue.mfalse⟩ rfl rfl rfl,
   c6_mark_conflicts.2.1 c6ctxT 0 0 0 c6ctxT.markInfos ⟨0, 0, MarkValue.mtrue⟩ rfl rfl rfl,
   c6_mark_conflicts.2.2.1 c6ctxTF 0 1 0 1 0 c6ctxTF.markInfos c6ctxTF.markInfos
     ⟨0, 0, MarkValue.mtrue⟩ ⟨1, 0, MarkValue.mfalse⟩ (by decide) rfl rfl rfl rfl rfl rfl,
   c6_mark_conflicts.2.2.2 c6ctxTT 0 1 0 1 0 c6ctxTT.markInfos c6ctxTT.markInfos
     ⟨0, 0, MarkValue.mtrue⟩ ⟨1, 0, MarkValue.mtrue⟩ rfl rfl rfl rfl (Or.inl ⟨rfl, rfl⟩)⟩

/-! ## Claim C3: round-tripping a shallow type through `Union` -/

/-- The shallow types on which `simplify(from(T))` can reproduce `T`: not
a `Union`, literal sets with at least two elements (a smaller set is
reported back as the unwrapped literal or nothing), and non-empty records
and tuples (an empty one is reported back as `EmptyTable`). -/
def canonicalShallow : T0 → Bool
  | .SomeIntegers s => 2 ≤ s.card
  | .SomeStrings s => 2 ≤ s.card
  | .SomeRecord fields => !fields.isEmpty
  | .SomeTuple fields => !fields.isEmpty
  | .Union _ => false
  | _ => true

/-- Claim C3: counterexample.  `T::SomeIntegers({3})` is not a `Union`,
yet `Union::from` then `simplify` returns `T::SomeInteger(3)`, a
different value of `T` (the visitor unwraps singleton literal sets). -/
theorem c3_counterexample :
    (Union0.from (T0.SomeIntegers {3})).simplify = T0.SomeInteger 3 ∧
    T0.SomeInteger 3 ≠ T0.SomeIntegers {3} := by
  constructor
  · simp [Union0.from, Union0.simplify, Union0.components, Union0.hasDynamic,
      Union0.hasNil, Union0.hasTrue, Union0.hasFalse, Union0.numbers, Union0.strings,
      Union0.tables, Union0.functions, Numbers0.components, Strings0.components,
      Tables0.components, Functions0.components]
  · intro h
    cases h

/-- Claim C3 (amended): for every shallow type that is not a `Union`,
whose literal sets have at least two elements, and whose record or tuple
is non-empty, converting to the expanded union representation and
simplifying returns the same type. -/
theorem c3_amended (t : T0) (h : canonicalShallow t = true) :
    (Union0.from t).simplify = t := by
  cases t with
  | SomeIntegers s =>
    have h2 : 2 ≤ s.card := by simpa [canonicalShallow] using h
    have hl : (s.sort (· ≤ ·)).length = s.card := Finset.length_sort _
    simp only [Union0.from, Union0.simplify, Union0.components, Union0.hasDynamic,
      Union0.hasNil, Union0.hasTrue, Union0.hasFalse, Union0.numbers, Union0.strings,
      Union0.tables, Union0.functions, Numbers0.components, Strings0.components,
      Tables0.components, Functions0.components]
    cases hs : s.sort (· ≤ ·) with
    | nil => rw [hs] at hl; simp at hl; omega
    | cons a tl =>
      cases tl with
      | nil => rw [hs] at hl; simp at hl; omega
      | cons b tl2 => simp
  | SomeStrings s =>
    have h2 : 2 ≤ s.card := by simpa [canonicalShallow] using h
    have hl : (s.sort (· ≤ ·)).length = s.card := Finset.length_sort _
    simp only [Union0.from, Union0.simplify, Union0.components, Union0.hasDynamic,
      Union0.hasNil, Union0.hasTrue, Union0.hasFalse, Union0.numbers, Union0.strings,
      Union0.tables, Union0.functions, Numbers0.components, Strings0.components,
      Tables0.components, Functions0.components]
    cases hs : s.sort (· ≤ ·) with
    | nil => rw [hs] at hl; simp at hl; omega
    | cons a tl =>
      cases tl with
      | nil => rw [hs] at hl; simp at hl; omega
      | cons b tl2 => simp
  | SomeRecord fs =>
    have h2 : ¬ fs.isEmpty := by simpa [canonicalShallow] using h
    simp [Union0.from, Union0.simplify, Union0.components, Union0.hasDynamic,
      Union0.hasNil, Union0.hasTrue, Union0.hasFalse, Union0.numbers, Union0.strings,
      Union0.tables, Union0.functions, Numbers0.components, Strings0.components,
      Tables0.components, Functions0.components, h2]
  | SomeTuple fs =>
    have h2 : ¬ fs.isEmpty := by simpa [canonicalShallow] using h
    simp [Union0.from, Union0.simplify, Union0.components, Union0.hasDynamic,
      Union0.hasNil, Union0.hasTrue, Union0.hasFalse, Union0.numbers, Union0.strings,
      Union0.tables, Union0.functions, Numbers0.components, Strings0.components,
      Tables0.components, Functions0.components, h2]
  | Union u => simp [canonicalShallow] at h
  | SomeInteger v =>
    simp [Union0.from, Union0.simplify, Union0.components, Union0.hasDynamic,
      Union0.hasNil, Union0.hasTrue, Union0.hasFalse, Union0.numbers, Union0.strings,
      Union0.tables, Union0.functions, Numbers0.components, Strings0.components,
      Tables0.components, Functions0.components]
  | SomeString v =>
    simp [Union0.from, Union0.simplify, Union0.components, Union0.hasDynamic,
      Union0.hasNil, Union0.hasTrue, Union0.hasFalse, Union0.numbers, Union0.strings,
      Union0.tables, Union0.functions, Numbers0.components, Strings0.components,
      Tables0.components, Functions0.components]
  | _ => rfl

/-- Witness for claim C3 (amended) at `T::Boolean`. -/
theorem c3_amended_witness :
    canonicalShallow T0.Boolean = true ∧ (Union0.from T0.Boolean).simplify = T0.Boolean :=
  ⟨rfl, c3_amended T0.Boolean rfl⟩

/-! ## The earliest-generation checker (check.rs)

`check.rs` walks the AST from the syntax crate, whose `ast.rs` is absent
from the sources, and uses the earliest generation of `env.rs` (a scope
stack over `TyInfo { ty, builtin }`), also absent.  Both are modelled
from the spec (sections 3.9 and 6.1) restricted to the fragment the
claims exercise; `check_bin_op` and `visit_exp` themselves are translated
from `check.rs`. -/

/-- `Builtin` from ty.rs: the only builtin attribute of this generation. -/
inductive Builtin0 where
  | Require
deriving DecidableEq, Repr

/-- Modelled from the spec: the earliest-generation `TyInfo` (a type plus
an optional builtin attribute), whose `env.rs` is missing from the
sources; reconstructed from its uses in check.rs. -/
structure TyInfoC where
  ty : T0
  builtin : Option Builtin0

def TyInfoC.new (t : T0) : TyInfoC := { ty := t, builtin := none }

/-- Modelled from the spec: the binary operators of the missing `ast.rs`
(section 4.6), with the names used by check.rs. -/
inductive BinOp where
  | Add | Sub | Mul | Div | Pow | Mod | Cat
  | Lt | Le | Gt | Ge | Eq | Ne | And | Or
deriving DecidableEq, Repr

/-- Modelled from the spec: `BinOp::symbol` of the missing `ast.rs`. -/
def BinOp.symbol : BinOp → String
  | .Add => "+" | .Sub => "-" | .Mul => "*" | .Div => "/" | .Pow => "^"
  | .Mod => "%" | .Cat => ".." | .Lt => "<" | .Le => "<=" | .Gt => ">"
  | .Ge => ">=" | .Eq => "==" | .Ne => "~=" | .And => "and" | .Or => "or"

/-- `is_possibly_numeric` from check.rs. -/
def isPossiblyNumeric : T0 → Bool
  | .Number => true
  | .Dynamic => true
  | _ => false

/-- `is_possibly_stringy` from check.rs. -/
def isPossiblyStringy : T0 → Bool
  | .Number => true
  | .String => true
  | .Dynamic => true
  | _ => false

/-- `Checker::check_bin_op`, arm for arm from check.rs (the comparison
operators accept exactly the seven pairs listed there). -/
def checkBinOp (lhs : TyInfoC) (op : BinOp) (rhs : TyInfoC) : Except String TyInfoC :=
  let lty := lhs.ty
  let rty := rhs.ty
  let oops : Except String TyInfoC :=
    .error ("tried to apply " ++ op.symbol ++ " operator")
  match op with
  | .Add | .Sub | .Mul | .Div | .Pow | .Mod =>
    if isPossiblyNumeric lty && isPossiblyNumeric rty then .ok (TyInfoC.new T0.Number)
    else oops
  | .Cat =>
    if isPossiblyStringy lty && isPossiblyStringy rty then .ok (TyInfoC.new T0.String)
    else oops
  | .Lt | .Le | .Gt | .Ge =>
    (match lty, rty with
     | T0.Number, T0.Number => .ok (TyInfoC.new T0.Boolean)
     | T0.Number, T0.Dynamic => .ok (TyInfoC.new T0.Boolean)
     | T0.String, T0.String => .ok (TyInfoC.new T0.Boolean)
     | T0.String, T0.Dynamic => .ok (TyInfoC.new T0.Boolean)
     | T0.Dynamic, T0.Number => .ok (TyInfoC.new T0.Boolean)
     | T0.Dynamic, T0.String => .ok (TyInfoC.new T0.Boolean)
     | T0.Dynamic, T0.Dynamic => .ok (TyInfoC.new T0.Boolean)
     | _, _ => oops)
  | .Eq | .Ne => .ok (TyInfoC.new T0.Boolean)
  | .And | .Or =>
    match lty, rty with
    | T0.Nil, _ => .ok (TyInfoC.new rty)
    | T0.Boolean, T0.Boolean => .ok (TyInfoC.new T0.Boolean)
    | T0.Number, T0.Number => .ok (TyInfoC.new T0.Number)
    | T0.String, T0.String => .ok (TyInfoC.new T0.String)
    | T0.Table, T0.Table => .ok (TyInfoC.new T0.Table)
    | T0.Function, T0.Function => .ok (TyInfoC.new T0.Function)
    | _, _ => .ok (TyInfoC.new T0.Dynamic)

/-- Modelled from the spec: the expression fragment of the missing
`ast.rs` exercised by the claims (literals, variables and calls,
section 6.1). -/
inductive ExpC where
  | Nil
  | True
  | False
  | Num (v : Int)
  | Str (s : String)
  | Var (name : String)
  | FuncCall (f : ExpC) (args : List ExpC)

/-- Modelled from the spec: the statement fragment of the missing
`ast.rs` used for required blocks (`Void(exp)`, section 6.1). -/
inductive StmtC where
  | Void (e : ExpC)

abbrev BlockC := List StmtC

/-- Modelled from the spec: the earliest-generation `Env` (missing from
the sources): a stack of scopes, innermost first, over a shared global
scope; lookup proceeds innermost-first and falls back to globals
(section 3.9). -/
structure EnvC where
  scopes : List (List (String × TyInfoC))
  globals : List (String × TyInfoC)

def EnvC.getVar (env : EnvC) (n : String) : Option TyInfoC :=
  match env.scopes.findSome? (fun sc => (sc.find? (fun e => e.1 == n)).map (fun e => e.2)) with
  | some i => some i
  | none => (env.globals.find? (fun e => e.1 == n)).map (fun e => e.2)

/-- The checker state: the environment plus, as a modelling device for
"the module loader is invoked", the list of paths passed to the loader. -/
structure CheckSt where
  env : EnvC
  requiredLog : List String

mutual

/-- `Checker::visit_exp` on the modelled fragment, translated from
check.rs: literals map to their tags (`true` and `false` both to
`T::Boolean`), variables are looked up, and a call requires a
function-or-dynamic callee, checks every argument, and then handles the
`Require` builtin: a literal-string first argument is handed to the
module loader (a loader failure is reported as `failed to require`
citing the path, a loaded block is checked in a sibling module
environment), any other first argument falls through to the default
`dynamic` result without touching the loader. -/
def visitExp (loader : String → Except String BlockC) :
    Nat → CheckSt → ExpC → Except String TyInfoC × CheckSt
  | 0, st, _ => (.error "fuel exhausted", st)
  | fuel + 1, st, e =>
    match e with
    | .Nil => (.ok (TyInfoC.new T0.Nil), st)
    | .False => (.ok (TyInfoC.new T0.Boolean), st)
    | .True => (.ok (TyInfoC.new T0.Boolean), st)
    | .Num _ => (.ok (TyInfoC.new T0.Number), st)
    | .Str _ => (.ok (TyInfoC.new T0.String), st)
    | .Var n =>
      (match st.env.getVar n with
       | some info => (.ok info, st)
       | none => (.error ("global or local variable " ++ n ++ " not defined"), st))
    | .FuncCall f args =>
      let r := visitExp loader fuel st f
      match r.1 with
      | .error e => (.error e, r.2)
      | .ok funcinfo =>
        match funcinfo.ty with
        | T0.Function | T0.Dynamic =>
          let ra := visitArgs loader fuel r.2 args
          (match ra.1 with
           | .error e => (.error e, ra.2)
           | .ok _ =>
             match funcinfo.builtin with
             | some Builtin0.Require =>
               (match args with
                | ExpC.Str path :: _ =>
                  let st2 := { ra.2 with requiredLog := ra.2.requiredLog ++ [path] }
                  (match loader path with
                   | .ok block =>
                     let stM : CheckSt :=
                       { st2 with env := { scopes := [[]], globals := st2.env.globals } }
                     let rb := visitBlock loader fuel stM block
                     let back : CheckSt :=
                       { rb.2 with env :=
                           { scopes := st2.env.scopes, globals := rb.2.env.globals } }
                     (match rb.1 with
                      | .error e => (.error e, back)
                      | .ok _ => (.ok (TyInfoC.new T0.Dynamic), back))
                   | .error e =>
                     (.error ("failed to require " ++ path ++ ": " ++ e), st2))
                | _ => (.ok (TyInfoC.new T0.Dynamic), ra.2))
             | none => (.ok (TyInfoC.new T0.Dynamic), ra.2))
        | _ => (.error "tried to call a non-function type", r.2)

/-- Left-to-right argument checking inside `visit_exp`. -/
def visitArgs (loader : String → Except String BlockC) :
    Nat → CheckSt → List ExpC → Except String Unit × CheckSt
  | 0, st, _ => (.error "fuel exhausted", st)
  | _ + 1, st, [] => (.ok (), st)
  | fuel + 1, st, a :: rest =>
    let r := visitExp loader fuel st a
    match r.1 with
    | .error e => (.error e, r.2)
    | .ok _ => visitArgs loader fuel r.2 rest

/-- `Checker::visit_block` on the fragment: a fresh child scope around the
statements, popped on exit. -/
def visitBlock (loader : String → Except String BlockC) :
    Nat → CheckSt → BlockC → Except String Unit × CheckSt
  | 0, st, _ => (.error "fuel exhausted", st)
  | fuel + 1, st, stmts =>
    let st1 : CheckSt := { st with env := { st.env with scopes := [] :: st.env.scopes } }
    let r := visitStmts loader fuel st1 stmts
    (r.1, { r.2 with env := { r.2.env with scopes := r.2.env.scopes.tail } })

/-- The statement loop of `visit_block` (`S::Void` evaluates the
expression for its effect). -/
def visitStmts (loader : String → Except String BlockC) :
    Nat → CheckSt → BlockC → Except String Unit × CheckSt
  | 0, st, _ => (.error "fuel exhausted", st)
  | _ + 1, st, [] => (.ok (), st)
  | fuel + 1, st, StmtC.Void e :: rest =>
    let r := visitExp loader fuel st e
    match r.1 with
    | .error err => (.error err, r.2)
    | .ok _ => visitStmts loader fuel r.2 rest

end

/-! ## Claim C4: comparison operator typing -/

def isCmpOp : BinOp → Bool
  | .Lt => true
  | .Le => true
  | .Gt => true
  | .Ge => true
  | _ => false

/-- The seven operand pairs the comparison arm of `check_bin_op`
accepts. -/
def cmpAccepts : T0 → T0 → Bool
  | .Number, .Number => true
  | .Number, .Dynamic => true
  | .String, .String => true
  | .String, .Dynamic => true
  | .Dynamic, .Number => true
  | .Dynamic, .String => true
  | .Dynamic, .Dynamic => true
  | _, _ => false

/-- Claim C4: counterexample.  The pair `(Dynamic, Boolean)` has a
`Dynamic` operand, so the claim requires `Boolean`, but `check_bin_op`
reports an operator error (and likewise for `(Boolean, Dynamic)`):
`Dynamic` is only accepted against `Number`, `String` or `Dynamic`. -/
theorem c4_counterexample :
    (∃ e, checkBinOp (TyInfoC.new T0.Dynamic) BinOp.Lt (TyInfoC.new T0.Boolean) = .error e) ∧
    (∃ e, checkBinOp (TyInfoC.new T0.Boolean) BinOp.Le (TyInfoC.new T0.Dynamic) = .error e) :=
  ⟨⟨_, rfl⟩, ⟨_, rfl⟩⟩

/-- Claim C4 (amended): for `< <= > >=`, `check_bin_op` returns `Boolean`
exactly on the pairs (Number,Number), (String,String), and the pairs in
which one operand is `Dynamic` and the other is `Number`, `String` or
`Dynamic`; every other pair is an operator error. -/
theorem c4_amended (l r : T0) (op : BinOp) (h : isCmpOp op = true) :
    checkBinOp (TyInfoC.new l) op (TyInfoC.new r) =
      (if cmpAccepts l r then .ok (TyInfoC.new T0.Boolean)
       else .error ("tried to apply " ++ op.symbol ++ " operator")) := by
  cases op
  case Lt => cases l <;> cases r <;> rfl
  case Le => cases l <;> cases r <;> rfl
  case Gt => cases l <;> cases r <;> rfl
  case Ge => cases l <;> cases r <;> rfl
  all_goals simp [isCmpOp] at h

/-- Witness for claim C4 (amended) at `number < number`. -/
theorem c4_amended_witness :
    isCmpOp BinOp.Lt = true ∧
    checkBinOp (TyInfoC.new T0.Number) BinOp.Lt (TyInfoC.new T0.Number) =
      (if cmpAccepts T0.Number T0.Number then .ok (TyInfoC.new T0.Boolean)
       else .error ("tried to apply " ++ BinOp.Lt.symbol ++ " operator")) :=
  ⟨rfl, c4_amended T0.Number T0.Number BinOp.Lt rfl⟩

/-! ## Claim C10: boolean literals type as `Boolean` -/

/-- Claim C10: `visit_exp` types both `E::True` and `E::False` as the
type `Boolean` (never as the literal types `True` or `False` the type
algebra provides), leaving the state untouched. -/
theorem c10_bool_literals (loader : String → Except String BlockC)
    (fuel : Nat) (st : CheckSt) :
    visitExp loader (fuel + 1) st ExpC.True = (.ok (TyInfoC.new T0.Boolean), st) ∧
    visitExp loader (fuel + 1) st ExpC.False = (.ok (TyInfoC.new T0.Boolean), st) ∧
    T0.Boolean ≠ T0.True ∧ T0.Boolean ≠ T0.False :=
  by refine ⟨rfl, rfl, ?_, ?_⟩ <;> intro h <;> cases h

/-! ## Claim C7: the `Require` builtin -/

def c7st : CheckSt :=
  { env := { scopes := [[]], globals := [("p", ⟨T0.Dynamic, some Builtin0.Require⟩)] }
    requiredLog := [] }

def c7loader : String → Except String BlockC := fun _ => .error "boom"

def c7badCall := visitExp c7loader 3 c7st (.FuncCall (.Var "p") [.Var "q"])

/-- Claim C7: counterexample.  `p` carries the `Require` builtin and the
first argument `q` is not a literal string, so the claim requires the
call to check successfully with result dynamic; but `q` is undefined, so
checking the argument fails and the whole call is an error (the loader
is indeed never invoked). -/
theorem c7_counterexample :
    (∃ e, c7badCall.1 = .error e) ∧ c7badCall.2.requiredLog = [] :=
  ⟨⟨_, rfl⟩, rfl⟩

/-- Claim C7 (amended): when the callee carries the `Require` builtin and
the callee and all arguments themselves check successfully, a first
argument that is not a literal string leaves the loader untouched and
the call succeeds with result dynamic; a literal-string first argument
whose load fails makes the call a typing failure citing the require
path. -/
theorem c7_require (loader : String → Except String BlockC) :
    (∀ (fuel : Nat) (st st1 st2 : CheckSt) (f : ExpC) (args : List ExpC)
       (funcinfo : TyInfoC),
       visitExp loader fuel st f = (.ok funcinfo, st1) →
       funcinfo.builtin = some Builtin0.Require →
       (funcinfo.ty = T0.Function ∨ funcinfo.ty = T0.Dynamic) →
       visitArgs loader fuel st1 args = (.ok (), st2) →
       (∀ path rest, args ≠ ExpC.Str path :: rest) →
       visitExp loader (fuel + 1) st (.FuncCall f args) =
         (.ok (TyInfoC.new T0.Dynamic), st2)) ∧
    (∀ (fuel : Nat) (st st1 st2 : CheckSt) (f : ExpC) (path : String)
       (rest : List ExpC) (funcinfo : TyInfoC) (msg : String),
       visitExp loader fuel st f = (.ok funcinfo, st1) →
       funcinfo.builtin = some Builtin0.Require →
       (funcinfo.ty = T0.Function ∨ funcinfo.ty = T0.Dynamic) →
       visitArgs loader fuel st1 (ExpC.Str path :: rest) = (.ok (), st2) →
       loader path = .error msg →
       visitExp loader (fuel + 1) st (.FuncCall f (ExpC.Str path :: rest)) =
         (.error ("failed to require " ++ path ++ ": " ++ msg),
          { st2 with requiredLog := st2.requiredLog ++ [path] })) := by
  constructor
  · intro fuel st st1 st2 f args funcinfo hf hb hty hargs hnl
    rcases hty with hty | hty
      <;> cases args with
      | nil => simp [visitExp, hf, hty, hb, hargs]
      | cons a0 rest =>
        cases a0 <;> first
          | exact absurd rfl (hnl _ rest)
          | simp [visitExp, hf, hty, hb, hargs]
  · intro fuel st st1 st2 f path rest funcinfo msg hf hb hty hargs hload
    rcases hty with hty | hty <;> simp [visitExp, hf, hty, hb, hargs, hload]

/-- Witness for claim C7 on the concrete environment: `p(nil)` succeeds
as dynamic without touching the loader, `p("m")` fails citing the
path. -/
theorem c7_require_witness :
    visitExp c7loader 3 c7st (.FuncCall (.Var "p") [ExpC.Nil]) =
      (.ok (TyInfoC.new T0.Dynamic), c7st) ∧
    visitExp c7loader 3 c7st (.FuncCall (.Var "p") [ExpC.Str "m"]) =
      (.error ("failed to require " ++ "m" ++ ": " ++ "boom"),
       { c7st with requiredLog := c7st.requiredLog ++ ["m"] }) :=
  ⟨(c7_require c7loader).1 2 c7st c7st c7st (.Var "p") [ExpC.Nil]
     ⟨T0.Dynamic, some Builtin0.Require⟩ rfl rfl (Or.inr rfl) rfl
     (fun _ _ h => by cases h),
   (c7_require c7loader).2 2 c7st c7st c7st (.Var "p") "m" []
     ⟨T0.Dynamic, some Builtin0.Require⟩ "boom" rfl rfl (Or.inr rfl) rfl rfl⟩

/-! ## The latest-generation types (ty/value.rs and ty/union.rs)

`ty/value.rs` and `ty/union.rs` are present in the sources, but the
`ty/mod.rs` they import (`Numbers`, `Strings`, `Tables`, `Functions`,
`Slot`, `F`, `Key`, `Class`, `Builtin`, `TVar` and the `TypeContext`
trait of this generation) is not; those parts are modelled from the spec
(sections 3.3 to 3.8) and say so below.  The `TypeContext` is the in-source
`env.rs` `Context`, instantiated at this generation's types. -/

/-- `Dyn` from value.rs: user-written or checker-inserted dynamic. -/
inductive Dyn where
  | User
  | Oops
deriving DecidableEq, Repr

/-- `Dyn::bitor`: `Oops` wins. -/
def Dyn.unionD : Dyn → Dyn → Dyn
  | .Oops, _ => .Oops
  | _, .Oops => .Oops
  | .User, .User => .User

/-- The `UnionedSimple` bitset over {nil, true, false, thread, userdata}. -/
structure USimple where
  hasNil : Bool
  hasTrue : Bool
  hasFalse : Bool
  hasThread : Bool
  hasUserData : Bool
deriving DecidableEq, Repr

def USimple.none : USimple := ⟨false, false, false, false, false⟩

def USimple.orS (a b : USimple) : USimple :=
  ⟨a.hasNil || b.hasNil, a.hasTrue || b.hasTrue, a.hasFalse || b.hasFalse,
   a.hasThread || b.hasThread, a.hasUserData || b.hasUserData⟩

/-- `self.simple.intersects(!other.simple)`: some bit of `a` is missing
from `b`. -/
def USimple.excess (a b : USimple) : Bool :=
  (a.hasNil && !b.hasNil) || (a.hasTrue && !b.hasTrue) ||
  (a.hasFalse && !b.hasFalse) || (a.hasThread && !b.hasThread) ||
  (a.hasUserData && !b.hasUserData)

/-- Modelled from the spec: this generation's `Numbers` (section 3.3:
`One`, `Some`, `Int`, `All`; the `None` case is carried by the
surrounding `Option` in `Unioned`). -/
inductive NumbersV where
  | one (v : Int)
  | someN (s : Finset Int)
  | intN
  | allN
deriving DecidableEq

/-- Modelled from the spec: `Numbers` union, promoting to the next
coarser level (section 3.3). -/
def NumbersV.unionN : NumbersV → NumbersV → NumbersV
  | .allN, _ => .allN
  | _, .allN => .allN
  | .intN, _ => .intN
  | _, .intN => .intN
  | .one a, .one b => if a = b then .one a else .someN {a, b}
  | .one a, .someN s => .someN (insert a s)
  | .someN s, .one b => .someN (insert b s)
  | .someN s, .someN t => .someN (s ∪ t)

/-- Modelled from the spec: `Numbers` subset check (section 3.3's
`One ⊆ Some ⊆ Int ⊆ All`). -/
def NumbersV.subN : NumbersV → NumbersV → Bool
  | _, .allN => true
  | .one _, .intN => true
  | .someN _, .intN => true
  | .intN, .intN => true
  | .one a, .one b => a == b
  | .one a, .someN s => decide (a ∈ s)
  | .someN s, .someN t => decide (s ⊆ t)
  | _, _ => false

/-- Modelled from the spec: this generation's `Strings` (section 3.3). -/
inductive StringsV where
  | one (s : String)
  | someS (s : Finset String)
  | allS
deriving DecidableEq

def StringsV.unionS : StringsV → StringsV → StringsV
  | .allS, _ => .allS
  | _, .allS => .allS
  | .one a, .one b => if a = b then .one a else .someS {a, b}
  | .one a, .someS s => .someS (insert a s)
  | .someS s, .one b => .someS (insert b s)
  | .someS s, .someS t => .someS (s ∪ t)

def StringsV.subS : StringsV → StringsV → Bool
  | _, .allS => true
  | .one a, .one b => a == b
  | .one a, .someS s => decide (a ∈ s)
  | .someS s, .someS t => decide (s ⊆ t)
  | _, _ => false

/-- Modelled from the spec: a nominal class reference (instances compare
through the class DAG, prototypes only to themselves; section 4.2). -/
inductive ClassV where
  | inst (n : Nat)
  | proto (n : Nat)
deriving DecidableEq, Repr

/-- The `BTreeSet<Class>` from `Unioned`, modelled as a duplicate-free
list. -/
def insertClass (c : ClassV) (l : List ClassV) : List ClassV :=
  if l.contains c then l else l ++ [c]

def unionClasses (a b : List ClassV) : List ClassV :=
  b.foldl (fun acc c => insertClass c acc) a

def subsetClasses (a b : List ClassV) : Bool :=
  a.all (fun c => b.contains c)

/-- Modelled from the spec: table keys (integer or string fields). -/
inductive KeyV where
  | intK (v : Int)
  | strK (s : String)
deriving DecidableEq, Repr

/-- Modelled from the spec: the slot flexibility flags (section 3.4). -/
inductive FV where
  | just
  | var
  | const
  | currently
  | varOrConst (m : Nat)
  | varOrCurrently (m : Nat)
deriving DecidableEq, Repr

/-- The builtin attributes of this generation (`Require` plus the
subtype/no-subtype markers used by the tests). -/
inductive BuiltinV where
  | require
  | subtypeMark
  | noSubtypeMark
deriving DecidableEq, Repr

/-- `Builtin::needs_subtype`: only the `_Subtype` marker demands a
matching tag on both sides. -/
def BuiltinV.needsSubtype : BuiltinV → Bool
  | .subtypeMark => true
  | _ => false

mutual

/-- The latest-generation shallow type `T` from ty/value.rs. -/
inductive TV where
  | Dynamic (d : Dyn)
  | All
  | None
  | Nil
  | Boolean
  | True
  | False
  | Integer
  | Number
  | String
  | Thread
  | UserData
  | Int (v : Int)
  | Str (s : String)
  | Tables (tab : TablesV)
  | Functions (fn : FunctionsV)
  | Class (c : ClassV)
  | TVar (tv : Nat)
  | Builtin (b : BuiltinV) (t : TV)
  | Union (u : UnionedV)

/-- Modelled from the spec: a slot, a type with a flexibility flag
(section 3.4); `SlotWithNil` is represented by the same type. -/
inductive SlotV where
  | mk (flex : FV) (ty : TV)

/-- Modelled from the spec: this generation's `Tables` (section 3.4:
`Fields` covers records and tuples, with `Slot`-valued fields). -/
inductive TablesV where
  | noneT
  | empty
  | fields (l : List (KeyV × SlotV))
  | array (s : SlotV)
  | map (k : TV) (v : SlotV)
  | allT

/-- Modelled from the spec: a single function signature (section 3.5). -/
inductive FunctionV where
  | mk (args : TySeqV) (returns : TySeqV)

/-- Modelled from the spec: `TySeq` (section 3.5). -/
inductive TySeqV where
  | mk (head : List TV) (tail : Option TV)

/-- Modelled from the spec: this generation's `Functions` (section 3.5:
`None`, `Simple`, `Multi` for overload intersections, `All`). -/
inductive FunctionsV where
  | noneF
  | simple (f : FunctionV)
  | multi (fs : List FunctionV)
  | allF

/-- `Unioned` from ty/union.rs: every category at once plus at most one
type variable. -/
inductive UnionedV where
  | mk (simple : USimple) (numbers : Option NumbersV) (strings : Option StringsV)
       (tables : Option TablesV) (functions : Option FunctionsV)
       (classes : List ClassV) (tvar : Option Nat)

end

def UnionedV.simple : UnionedV → USimple | .mk s _ _ _ _ _ _ => s
def UnionedV.numbers : UnionedV → Option NumbersV | .mk _ n _ _ _ _ _ => n
def UnionedV.strings : UnionedV → Option StringsV | .mk _ _ s _ _ _ _ => s
def UnionedV.tables : UnionedV → Option TablesV | .mk _ _ _ t _ _ _ => t
def UnionedV.functions : UnionedV → Option FunctionsV | .mk _ _ _ _ f _ _ => f
def UnionedV.classes : UnionedV → List ClassV | .mk _ _ _ _ _ c _ => c
def UnionedV.tvar : UnionedV → Option Nat | .mk _ _ _ _ _ _ v => v

def SlotV.flex : SlotV → FV | .mk f _ => f
def SlotV.ty : SlotV → TV | .mk _ t => t

/-- `Unioned::empty`. -/
def UnionedV.emptyU : UnionedV :=
  .mk USimple.none none none none none [] none

/-- `T::as_base`: strip one builtin layer. -/
def TV.asBase : TV → TV
  | .Builtin _ t => t
  | t => t

/-- `T::get_dynamic`: the dynamic kind of a (possibly builtin-wrapped)
dynamic type. -/
def TV.getDyn : TV → Option Dyn
  | .Dynamic d => some d
  | .Builtin _ t => t.getDyn
  | _ => none

/-- The builtin nesting depth, bounding the destructuring recursion of
the lattice operations. -/
def TV.builtinDepth : TV → Nat
  | .Builtin _ t => t.builtinDepth + 1
  | _ => 0

/-- `Unioned::from` (ty/union.rs): fill one category from the base type.
The source panics on `T::Dynamic`/`T::All` and marks a nested builtin
unreachable; those arms return the empty union here (they are
unreachable from the lattice operations, which destructure builtins and
short-circuit dynamic and top first). -/
def UnionedV.fromT (ty : TV) : UnionedV :=
  match ty.asBase with
  | .Dynamic _ => UnionedV.emptyU
  | .All => UnionedV.emptyU
  | .None => UnionedV.emptyU
  | .Nil => .mk ⟨true, false, false, false, false⟩ none none none none [] none
  | .Boolean => .mk ⟨false, true, true, false, false⟩ none none none none [] none
  | .True => .mk ⟨false, true, false, false, false⟩ none none none none [] none
  | .False => .mk ⟨false, false, true, false, false⟩ none none none none [] none
  | .Thread => .mk ⟨false, false, false, true, false⟩ none none none none [] none
  | .UserData => .mk ⟨false, false, false, false, true⟩ none none none none [] none
  | .Number => .mk USimple.none (some .allN) none none none [] none
  | .Integer => .mk USimple.none (some .intN) none none none [] none
  | .Int v => .mk USimple.none (some (.one v)) none none none [] none
  | .String => .mk USimple.none none (some .allS) none none [] none
  | .Str s => .mk USimple.none none (some (.one s)) none none [] none
  | .Tables tab => .mk USimple.none none none (some tab) none [] none
  | .Functions fn => .mk USimple.none none none none (some fn) [] none
  | .Class c => .mk USimple.none none none none none [c] none
  | .TVar tv => .mk USimple.none none none none none [] (some tv)
  | .Builtin _ _ => UnionedV.emptyU
  | .Union u => u

/-- `Unioned::visit` (ty/union.rs) as the list of visited components, in
source order: simple bits, numbers, strings, tables, functions, classes,
then the type variable. -/
def UnionedV.componentsV (u : UnionedV) : List TV :=
  (if u.simple.hasNil then [TV.Nil] else []) ++
  (if u.simple.hasTrue then
     (if u.simple.hasFalse then [TV.Boolean] else [TV.True])
   else if u.simple.hasFalse then [TV.False] else []) ++
  (if u.simple.hasThread then [TV.Thread] else []) ++
  (if u.simple.hasUserData then [TV.UserData] else []) ++
  (match u.numbers with
   | some .allN => [TV.Number]
   | some .intN => [TV.Integer]
   | some (.someN s) => (s.sort (· ≤ ·)).map (fun v => TV.Int v)
   | some (.one v) => [TV.Int v]
   | none => []) ++
  (match u.strings with
   | some .allS => [TV.String]
   | some (.someS s) => (s.sort (· ≤ ·)).map (fun v => TV.Str v)
   | some (.one s) => [TV.Str s]
   | none => []) ++
  (match u.tables with
   | some tab => [TV.Tables tab]
   | none => []) ++
  (match u.functions with
   | some fn => [TV.Functions fn]
   | none => []) ++
  u.classes.map (fun c => TV.Class c) ++
  (match u.tvar with
   | some tv => [TV.TVar tv]
   | none => [])

/-- `Unioned::simplify` (ty/union.rs). -/
def UnionedV.simplifyV (u : UnionedV) : TV :=
  match u.componentsV with
  | [] => TV.None
  | [t] => t
  | _ => TV.Union u

/-- Modelled from the spec: union of the overloaded-function sets; the
spec's earlier generation concatenates the disjunctive normal forms, and
`All` absorbs. -/
def FunctionsV.toListF : FunctionsV → List FunctionV
  | .noneF => []
  | .simple f => [f]
  | .multi fs => fs
  | .allF => []

def FunctionsV.unionF : FunctionsV → FunctionsV → FunctionsV
  | .allF, _ => .allF
  | _, .allF => .allF
  | .noneF, g => g
  | f, .noneF => f
  | f, g => .multi (f.toListF ++ g.toListF)

def optUnionWith (f : γ → γ → γ) : Option γ → Option γ → Option γ
  | none, b => b
  | a, none => a
  | some a, some b => some (f a b)

/-! ## Structural equality for the latest-generation types (the derived
`PartialEq` of ty/value.rs and ty/union.rs). -/

mutual

def beqTV : TV → TV → Bool
  | .Dynamic a, .Dynamic b => a == b
  | .All, .All => true
  | .None, .None => true
  | .Nil, .Nil => true
  | .Boolean, .Boolean => true
  | .True, .True => true
  | .False, .False => true
  | .Integer, .Integer => true
  | .Number, .Number => true
  | .String, .String => true
  | .Thread, .Thread => true
  | .UserData, .UserData => true
  | .Int a, .Int b => a == b
  | .Str a, .Str b => a == b
  | .Tables a, .Tables b => beqTablesV a b
  | .Functions a, .Functions b => beqFunctionsV a b
  | .Class a, .Class b => a == b
  | .TVar a, .TVar b => a == b
  | .Builtin a t, .Builtin b u => a == b && beqTV t u
  | .Union a, .Union b => beqUnionedV a b
  | _, _ => false

def beqSlotV : SlotV → SlotV → Bool
  | .mk f t, .mk g u => f == g && beqTV t u

def beqTablesV : TablesV → TablesV → Bool
  | .noneT, .noneT => true
  | .empty, .empty => true
  | .fields a, .fields b => beqFieldsV a b
  | .array a, .array b => beqSlotV a b
  | .map k v, .map k' v' => beqTV k k' && beqSlotV v v'
  | .allT, .allT => true
  | _, _ => false

def beqFieldsV : List (KeyV × SlotV) → List (KeyV × SlotV) → Bool
  | [], [] => true
  | (k, v) :: xs, (k', v') :: ys => k == k' && beqSlotV v v' && beqFieldsV xs ys
  | _, _ => false

def beqFunctionV : FunctionV → FunctionV → Bool
  | .mk a r, .mk a' r' => beqTySeqV a a' && beqTySeqV r r'

def beqTySeqV : TySeqV → TySeqV → Bool
  | .mk h t, .mk h' t' =>
    beqListTV h h' &&
    (match t, t' with
     | Option.none, Option.none => true
     | some x, some y => beqTV x y
     | _, _ => false)

def beqListTV : List TV → List TV → Bool
  | [], [] => true
  | x :: xs, y :: ys => beqTV x y && beqListTV xs ys
  | _, _ => false

def beqListFnV : List FunctionV → List FunctionV → Bool
  | [], [] => true
  | x :: xs, y :: ys => beqFunctionV x y && beqListFnV xs ys
  | _, _ => false

def beqFunctionsV : FunctionsV → FunctionsV → Bool
  | .noneF, .noneF => true
  | .simple f, .simple g => beqFunctionV f g
  | .multi fs, .multi gs => beqListFnV fs gs
  | .allF, .allF => true
  | _, _ => false

def beqUnionedV : UnionedV → UnionedV → Bool
  | .mk s n st t f c v, .mk s' n' st' t' f' c' v' =>
    s == s' && n == n' && st == st' &&
    (match t, t' with
     | Option.none, Option.none => true
     | some a, some b => beqTablesV a b
     | _, _ => false) &&
    (match f, f' with
     | Option.none, Option.none => true
     | some a, some b => beqFunctionsV a b
     | _, _ => false) &&
    c == c' && v == v'

end

/-- `is_bound_trivial` at this generation (absent bounds, the bottom type
and dynamic types may be overwritten). -/
def isBoundTrivialV : Option TV → Bool
  | some TV.None => true
  | some (TV.Dynamic _) => true
  | some _ => false
  | none => true

/-! ## The `Context` for the latest generation

The env of this generation is missing from the sources; the in-source
`env.rs` `Context` is taken as its authority, instantiated at `TV`
bounds.  Marks are not consulted by the operations the claims exercise
and are omitted; the class DAG of `is_subclass_of` is abstracted as a
relation. -/

structure ContextV where
  nextTVar : Nat
  tvarSub : Constraints TV
  tvarSup : Constraints TV
  tvarEq : Constraints TV
  isSubclassOf : Nat → Nat → Bool

def ContextV.new : ContextV :=
  { nextTVar := 0
    tvarSub := Constraints.new TV "<:"
    tvarSup := Constraints.new TV ":>"
    tvarEq := Constraints.new TV "="
    isSubclassOf := fun _ _ => false }

def ContextV.genTVar (ctx : ContextV) : Nat × ContextV :=
  (ctx.nextTVar, { ctx with nextTVar := ctx.nextTVar + 1 })

/-- `Context::assert_tvar_sub_tvar` at this generation (relations only,
no recursion into types). -/
def ContextV.assertTvarSubTvar (ctx : ContextV) (lhs rhs : Nat) :
    Except String Unit × ContextV :=
  let i := ctx.tvarEq.isRel lhs rhs
  let ctx := { ctx with tvarEq := i.2 }
  if i.1 then (.ok (), ctx)
  else
    let r1 := ctx.tvarSub.addRelation beqTV isBoundTrivialV lhs rhs
    let ctx := { ctx with tvarSub := r1.2 }
    match r1.1 with
    | .error e => (.error e, ctx)
    | .ok _ =>
      let r2 := ctx.tvarSup.addRelation beqTV isBoundTrivialV rhs lhs
      (r2.1, { ctx with tvarSup := r2.2 })

/-- Modelled from the spec: the `Lattice` union of two type variables in
the missing ty/mod.rs, a fresh variable above both (sections 4.1 and
4.3). -/
def tvarUnionV (ctx : ContextV) (a b : Nat) : Nat × ContextV :=
  let g := ctx.genTVar
  let r1 := g.2.assertTvarSubTvar a g.1
  let r2 := r1.2.assertTvarSubTvar b g.1
  (g.1, r2.2)

/-- Modelled from the spec: joining slot flexibilities; the real slot
union gates widening behind fresh marks (section 3.4), which belongs to
the missing ty/mod.rs, so unequal flexibilities join at `Const`. -/
def flexJoin (a b : FV) : FV :=
  if a == b then a else FV.const

/-- Replace the slot stored under a key in a field list. -/
def fieldsSet (l : List (KeyV × SlotV)) (k : KeyV) (v : SlotV) : List (KeyV × SlotV) :=
  match l with
  | [] => [(k, v)]
  | e :: rest => if e.1 == k then (k, v) :: rest else e :: fieldsSet rest k v

mutual

/-- `T::union` from ty/value.rs, arm for arm: builtins are destructured
first (kept only when both sides carry the same builtin), dynamic
eclipses everything (`Oops` over `User`), then the top type, then the
bottom type, then the same-kind pairs; everything else goes through the
`Unioned` representation and is simplified back.  The operations are
fuelled; every recursive call strictly decreases the fuel, which the
claims instantiate above the builtin nesting depth. -/
def unionTV : Nat → TV → TV → ContextV → TV × ContextV
  | 0, _, _, ctx => (TV.None, ctx)
  | fuel + 1, a, b, ctx =>
    match a, b with
    | .Builtin lb lhs, .Builtin rb rhs =>
      if lb = rb then
        let r := unionTV fuel lhs rhs ctx
        (.Builtin lb r.1, r.2)
      else unionTV fuel lhs rhs ctx
    | .Builtin _ lhs, rhs => unionTV fuel lhs rhs ctx
    | lhs, .Builtin _ rhs => unionTV fuel lhs rhs ctx
    | .Dynamic d1, .Dynamic d2 => (.Dynamic (d1.unionD d2), ctx)
    | .Dynamic d, _ => (.Dynamic d, ctx)
    | _, .Dynamic d => (.Dynamic d, ctx)
    | .All, _ => (.All, ctx)
    | _, .All => (.All, ctx)
    | .None, ty => (ty, ctx)
    | ty, .None => (ty, ctx)
    | .Nil, .Nil => (.Nil, ctx)
    | .Boolean, .Boolean => (.Boolean, ctx)
    | .Boolean, .True => (.Boolean, ctx)
    | .Boolean, .False => (.Boolean, ctx)
    | .True, .Boolean => (.Boolean, ctx)
    | .False, .Boolean => (.Boolean, ctx)
    | .True, .True => (.True, ctx)
    | .True, .False => (.Boolean, ctx)
    | .False, .True => (.Boolean, ctx)
    | .False, .False => (.False, ctx)
    | .Thread, .Thread => (.Thread, ctx)
    | .UserData, .UserData => (.UserData, ctx)
    | .Number, .Number => (.Number, ctx)
    | .Integer, .Number => (.Number, ctx)
    | .Int _, .Number => (.Number, ctx)
    | .Number, .Integer => (.Number, ctx)
    | .Number, .Int _ => (.Number, ctx)
    | .Integer, .Integer => (.Integer, ctx)
    | .Int _, .Integer => (.Integer, ctx)
    | .Integer, .Int _ => (.Integer, ctx)
    | .String, .String => (.String, ctx)
    | .Str _, .String => (.String, ctx)
    | .String, .Str _ => (.String, ctx)
    | .Int a, .Int b =>
      if a = b then (.Int a, ctx) else unionFallback fuel (.Int a) (.Int b) ctx
    | .Str a, .Str b =>
      if a = b then (.Str a, ctx) else unionFallback fuel (.Str a) (.Str b) ctx
    | .Tables ta, .Tables tb =>
      let r := unionTables fuel ta tb ctx
      (.Tables r.1, r.2)
    | .Functions fa, .Functions fb => (.Functions (fa.unionF fb), ctx)
    | .Class ca, .Class cb =>
      if ca = cb then (.Class ca, ctx) else unionFallback fuel (.Class ca) (.Class cb) ctx
    | .TVar va, .TVar vb =>
      let r := tvarUnionV ctx va vb
      (.TVar r.1, r.2)
    | x, y => unionFallback fuel x y ctx

/-- The catch-all arm of `T::union`: through `Unioned::from`,
`Unioned::union` and `simplify`. -/
def unionFallback : Nat → TV → TV → ContextV → TV × ContextV
  | 0, _, _, ctx => (TV.None, ctx)
  | fuel + 1, a, b, ctx =>
    let r := unionUnionedV fuel (UnionedV.fromT a) (UnionedV.fromT b) ctx
    (r.1.simplifyV, r.2)

/-- `Unioned::union` from ty/union.rs: pointwise category unions, merged
classes, and a fresh upper type variable when both sides carry one. -/
def unionUnionedV : Nat → UnionedV → UnionedV → ContextV → UnionedV × ContextV
  | 0, _, _, ctx => (UnionedV.emptyU, ctx)
  | fuel + 1, a, b, ctx =>
    let simple := a.simple.orS b.simple
    let numbers := optUnionWith NumbersV.unionN a.numbers b.numbers
    let strings := optUnionWith StringsV.unionS a.strings b.strings
    let rt := unionOptTables fuel a.tables b.tables ctx
    let functions := optUnionWith FunctionsV.unionF a.functions b.functions
    let classes := unionClasses a.classes b.classes
    let rv : Option Nat × ContextV :=
      match a.tvar, b.tvar with
      | some x, some y =>
        let r := tvarUnionV rt.2 x y
        (some r.1, r.2)
      | some x, none => (some x, rt.2)
      | none, y => (y, rt.2)
    (.mk simple numbers strings rt.1 functions classes rv.1, rv.2)

def unionOptTables : Nat → Option TablesV → Option TablesV → ContextV →
    Option TablesV × ContextV
  | 0, _, _, ctx => (none, ctx)
  | _ + 1, none, b, ctx => (b, ctx)
  | _ + 1, a, none, ctx => (a, ctx)
  | fuel + 1, some a, some b, ctx =>
    let r := unionTables fuel a b ctx
    (some r.1, r.2)

/-- Modelled from the spec: union of two table shapes of the missing
ty/mod.rs.  The spec fixes only that union is pointwise per category
(section 4.1); same-shaped tables join pointwise on slots and keys, the
neutral shapes (`None`, `Empty`) disappear, and differently shaped
tables widen to the top table. -/
def unionTables : Nat → TablesV → TablesV → ContextV → TablesV × ContextV
  | 0, _, _, ctx => (TablesV.noneT, ctx)
  | fuel + 1, a, b, ctx =>
    match a, b with
    | .noneT, t => (t, ctx)
    | t, .noneT => (t, ctx)
    | .empty, t => (t, ctx)
    | t, .empty => (t, ctx)
    | .allT, _ => (.allT, ctx)
    | _, .allT => (.allT, ctx)
    | .fields fa, .fields fb =>
      let r := unionFieldsList fuel fa fb ctx
      (.fields r.1, r.2)
    | .array sa, .array sb =>
      let r := unionSlots fuel sa sb ctx
      (.array r.1, r.2)
    | .map ka va, .map kb vb =>
      let rk := unionTV fuel ka kb ctx
      let rv := unionSlots fuel va vb rk.2
      (.map rk.1 rv.1, rv.2)
    | _, _ => (.allT, ctx)

/-- Modelled from the spec: slot union (type union under the joined
flexibility, section 3.4). -/
def unionSlots : Nat → SlotV → SlotV → ContextV → SlotV × ContextV
  | 0, _, _, ctx => (SlotV.mk FV.just TV.None, ctx)
  | fuel + 1, a, b, ctx =>
    let r := unionTV fuel a.ty b.ty ctx
    (SlotV.mk (flexJoin a.flex b.flex) r.1, r.2)

/-- Key-wise merge of two field lists, unioning the slots of shared
keys. -/
def unionFieldsList : Nat → List (KeyV × SlotV) → List (KeyV × SlotV) → ContextV →
    List (KeyV × SlotV) × ContextV
  | 0, _, _, ctx => ([], ctx)
  | _ + 1, acc, [], ctx => (acc, ctx)
  | fuel + 1, acc, (k, s) :: rest, ctx =>
    match acc.find? (fun e => e.1 == k) with
    | some e =>
      let r := unionSlots fuel e.2 s ctx
      unionFieldsList fuel (fieldsSet acc k r.1) rest r.2
    | none => unionFieldsList fuel (acc ++ [(k, s)]) rest ctx

end

mutual

/-- `T::assert_sub` from ty/value.rs, arm for arm: builtins are
destructured (a subtype-demanding builtin must match on both sides),
dynamic succeeds in both directions, the top type on the right and the
bottom type on the left always succeed, tags map to their set-theoretic
counterparts, tables/functions/classes recurse, and the union and type
variable arms issue constraints into the context.  In particular a union
on the left is sent whole to a right-hand type variable's sup bound only
when the union itself carries no type variable (`a.tvar.is_none()`);
otherwise it is distributed component by component. -/
def assertSubTV : Nat → TV → TV → ContextV → Except String Unit × ContextV
  | 0, _, _, ctx => (.error "fuel exhausted", ctx)
  | fuel + 1, a, b, ctx =>
    match a, b with
    | .Builtin lb lhs, .Builtin rb rhs =>
      if (lb.needsSubtype || rb.needsSubtype) && lb ≠ rb then
        (.error "not a subtype", ctx)
      else assertSubTV fuel lhs rhs ctx
    | .Builtin _ lhs, rhs => assertSubTV fuel lhs rhs ctx
    | lhs, .Builtin rb rhs =>
      if rb.needsSubtype then (.error "not a subtype", ctx)
      else assertSubTV fuel lhs rhs ctx
    | .Dynamic _, .Dynamic _ => (.ok (), ctx)
    | .Dynamic _, _ => (.ok (), ctx)
    | _, .Dynamic _ => (.ok (), ctx)
    | _, .All => (.ok (), ctx)
    | .None, _ => (.ok (), ctx)
    | _, .None => (.error "not a subtype", ctx)
    | .Nil, .Nil => (.ok (), ctx)
    | .Boolean, .Boolean => (.ok (), ctx)
    | .True, .Boolean => (.ok (), ctx)
    | .True, .True => (.ok (), ctx)
    | .False, .Boolean => (.ok (), ctx)
    | .False, .False => (.ok (), ctx)
    | .Thread, .Thread => (.ok (), ctx)
    | .UserData, .UserData => (.ok (), ctx)
    | .Number, .Number => (.ok (), ctx)
    | .Integer, .Number => (.ok (), ctx)
    | .Int _, .Number => (.ok (), ctx)
    | .Integer, .Integer => (.ok (), ctx)
    | .Int _, .Integer => (.ok (), ctx)
    | .Int a, .Int b => (if a = b then .ok () else .error "not a subtype", ctx)
    | .String, .String => (.ok (), ctx)
    | .Str _, .String => (.ok (), ctx)
    | .Str a, .Str b => (if a = b then .ok () else .error "not a subtype", ctx)
    | .Tables ta, .Tables tb => assertSubTables fuel ta tb ctx
    | .Functions fa, .Functions fb => assertSubFunctions fuel fa fb ctx
    | .Class (.inst ca), .Class (.inst cb) =>
      (if ctx.isSubclassOf ca cb then .ok () else .error "not a subtype", ctx)
    | .Union ua, .Union ub => assertSubUnioned fuel ua ub ctx
    | .Union ua, .TVar vb =>
      if ua.tvar.isNone then
        -- do NOT split a tvar-free union: send it whole to the sup bound
        ctxAssertTvarSup fuel ctx vb (TV.Union ua)
      else assertSubListTV fuel ua.componentsV (TV.TVar vb) ctx
    | .Union ua, rhs => assertSubListTV fuel ua.componentsV rhs ctx
    | lhs, .Union ub => assertSubTVUnioned fuel lhs ub ctx
    | .TVar va, .TVar vb => ctx.assertTvarSubTvar va vb
    | lhs, .TVar vb => ctxAssertTvarSup fuel ctx vb lhs
    | .TVar va, rhs => ctxAssertTvarSub fuel ctx va rhs
    | _, _ => (.error "not a subtype", ctx)

/-- The distribution `a1 ∨ a2 <: b === a1 <: b AND a2 <: b` over the
visited components. -/
def assertSubListTV : Nat → List TV → TV → ContextV → Except String Unit × ContextV
  | 0, _, _, ctx => (.error "fuel exhausted", ctx)
  | _ + 1, [], _, ctx => (.ok (), ctx)
  | fuel + 1, t :: rest, b, ctx =>
    let r := assertSubTV fuel t b ctx
    match r.1 with
    | .error e => (.error e, r.2)
    | .ok _ => assertSubListTV fuel rest b r.2

/-- `Lattice<Unioned> for T`: a single type against a union, matching
some component of the union (ty/value.rs). -/
def assertSubTVUnioned : Nat → TV → UnionedV → ContextV → Except String Unit × ContextV
  | 0, _, _, ctx => (.error "fuel exhausted", ctx)
  | fuel + 1, a, other, ctx =>
    match a with
    | .Dynamic _ => (.ok (), ctx)
    | .None => (.ok (), ctx)
    | .Nil => (if other.simple.hasNil then .ok () else .error "not a subtype", ctx)
    | .Boolean =>
      (if other.simple.hasTrue && other.simple.hasFalse then .ok ()
       else .error "not a subtype", ctx)
    | .True => (if other.simple.hasTrue then .ok () else .error "not a subtype", ctx)
    | .False => (if other.simple.hasFalse then .ok () else .error "not a subtype", ctx)
    | .Thread => (if other.simple.hasThread then .ok () else .error "not a subtype", ctx)
    | .UserData => (if other.simple.hasUserData then .ok () else .error "not a subtype", ctx)
    | .Number =>
      (match other.numbers with
       | some .allN => (.ok (), ctx)
       | _ => (.error "not a subtype", ctx))
    | .Integer =>
      (match other.numbers with
       | some .allN => (.ok (), ctx)
       | some .intN => (.ok (), ctx)
       | _ => (.error "not a subtype", ctx))
    | .Int v =>
      (match other.numbers with
       | some .allN => (.ok (), ctx)
       | some .intN => (.ok (), ctx)
       | some (.someN s) => (if v ∈ s then .ok () else .error "not a subtype", ctx)
       | some (.one w) => (if v = w then .ok () else .error "not a subtype", ctx)
       | none => (.error "not a subtype", ctx))
    | .String =>
      (match other.strings with
       | some .allS => (.ok (), ctx)
       | _ => (.error "not a subtype", ctx))
    | .Str s =>
      (match other.strings with
       | some .allS => (.ok (), ctx)
       | some (.someS t) => (if s ∈ t then .ok () else .error "not a subtype", ctx)
       | some (.one w) => (if s = w then .ok () else .error "not a subtype", ctx)
       | none => (.error "not a subtype", ctx))
    | .Tables ta =>
      (match other.tables with
       | some tb => assertSubTables fuel ta tb ctx
       | none => (.error "not a subtype", ctx))
    | .Functions fa =>
      (match other.functions with
       | some fb => assertSubFunctions fuel fa fb ctx
       | none => (.error "not a subtype", ctx))
    | .Class c =>
      (if other.classes.contains c then .ok () else .error "not a subtype", ctx)
    | .TVar va =>
      if other.tvar.isSome then (.error "not a subtype", ctx)
      else ctxAssertTvarSub fuel ctx va (TV.Union other)
    | .Union ua => assertSubUnioned fuel ua other ctx
    | _ => (.error "not a subtype", ctx)

/-- `Unioned::assert_sub` from ty/union.rs: simple bits must be covered,
numbers and strings compare as sets, at most one of
tables/functions/tvar may be instantiated on each side, classes compare
by subset, and a left type variable requires one on the right. -/
def assertSubUnioned : Nat → UnionedV → UnionedV → ContextV → Except String Unit × ContextV
  | 0, _, _, ctx => (.error "fuel exhausted", ctx)
  | fuel + 1, a, b, ctx =>
    if a.simple.excess b.simple then (.error "not a subtype", ctx)
    else
      let numOk :=
        match a.numbers, b.numbers with
        | none, _ => true
        | some _, none => false
        | some x, some y => x.subN y
      let strOk :=
        match a.strings, b.strings with
        | none, _ => true
        | some _, none => false
        | some x, some y => x.subS y
      if !numOk || !strOk then (.error "not a subtype", ctx)
      else
        let countA :=
          (if a.tables.isSome then 1 else 0) + (if a.functions.isSome then 1 else 0) +
          (if a.tvar.isSome then 1 else 0)
        let countB :=
          (if b.tables.isSome then 1 else 0) + (if b.functions.isSome then 1 else 0) +
          (if b.tvar.isSome then 1 else 0)
        if countA > 1 || countB > 1 then (.error "not a subtype", ctx)
        else
          let rt : Except String Unit × ContextV :=
            match a.tables, b.tables with
            | none, _ => (.ok (), ctx)
            | some _, none => (.error "not a subtype", ctx)
            | some x, some y => assertSubTables fuel x y ctx
          match rt.1 with
          | .error e => (.error e, rt.2)
          | .ok _ =>
            let rf : Except String Unit × ContextV :=
              match a.functions, b.functions with
              | none, _ => (.ok (), rt.2)
              | some _, none => (.error "not a subtype", rt.2)
              | some x, some y => assertSubFunctions fuel x y rt.2
            match rf.1 with
            | .error e => (.error e, rf.2)
            | .ok _ =>
              if !(subsetClasses a.classes b.classes) then
                (.error "not a subtype", rf.2)
              else
                match a.tvar, b.tvar with
                | some x, some y => rf.2.assertTvarSubTvar x y
                | some _, none => (.error "not a subtype", rf.2)
                | none, _ => (.ok (), rf.2)

/-- Modelled from the spec: subtyping of the missing ty/mod.rs table
shapes (section 4.2: record width subtyping with per-field slot
subtyping, tuples embed into arrays and integer-keyed maps, arrays into
maps). -/
def assertSubTables : Nat → TablesV → TablesV → ContextV → Except String Unit × ContextV
  | 0, _, _, ctx => (.error "fuel exhausted", ctx)
  | fuel + 1, a, b, ctx =>
    match a, b with
    | _, .allT => (.ok (), ctx)
    | .noneT, _ => (.ok (), ctx)
    | .empty, .empty => (.ok (), ctx)
    | .empty, .fields bs => (if bs.isEmpty then .ok () else .error "not a subtype", ctx)
    | .empty, .array _ => (.ok (), ctx)
    | .empty, .map _ _ => (.ok (), ctx)
    | .fields as_, .fields bs => assertSubFieldsList fuel as_ bs ctx
    | .fields as_, .array v => assertSubFieldValues fuel as_ true v ctx
    | .fields as_, .map k v =>
      let rk := assertSubFieldKeys fuel as_ k ctx
      (match rk.1 with
       | .error e => (.error e, rk.2)
       | .ok _ => assertSubFieldValues fuel as_ false v rk.2)
    | .array sa, .array sb => assertSubSlots fuel sa sb ctx
    | .array sa, .map k v =>
      let rk := assertSubTV fuel TV.Integer k ctx
      (match rk.1 with
       | .error e => (.error e, rk.2)
       | .ok _ => assertSubSlots fuel sa v rk.2)
    | .map ka va, .map kb vb =>
      let rk := assertSubTV fuel ka kb ctx
      (match rk.1 with
       | .error e => (.error e, rk.2)
       | .ok _ => assertSubSlots fuel va vb rk.2)
    | _, _ => (.error "not a subtype", ctx)

/-- Width subtyping: every field of the supertype must be present in the
subtype with a compatible slot. -/
def assertSubFieldsList : Nat → List (KeyV × SlotV) → List (KeyV × SlotV) → ContextV →
    Except String Unit × ContextV
  | 0, _, _, ctx => (.error "fuel exhausted", ctx)
  | _ + 1, _, [], ctx => (.ok (), ctx)
  | fuel + 1, as_, (k, s) :: rest, ctx =>
    match as_.find? (fun e => e.1 == k) with
    | some e =>
      let r := assertSubSlots fuel e.2 s ctx
      (match r.1 with
       | .error msg => (.error msg, r.2)
       | .ok _ => assertSubFieldsList fuel as_ rest r.2)
    | none => (.error "not a subtype", ctx)

/-- Every field slot against a common value slot; with `intOnly` the keys
must in addition be integers (the tuple-into-array rule). -/
def assertSubFieldValues : Nat → List (KeyV × SlotV) → Bool → SlotV → ContextV →
    Except String Unit × ContextV
  | 0, _, _, _, ctx => (.error "fuel exhausted", ctx)
  | _ + 1, [], _, _, ctx => (.ok (), ctx)
  | fuel + 1, (k, s) :: rest, intOnly, v, ctx =>
    match intOnly, k with
    | true, .strK _ => (.error "not a subtype", ctx)
    | _, _ =>
      let r := assertSubSlots fuel s v ctx
      (match r.1 with
       | .error msg => (.error msg, r.2)
       | .ok _ => assertSubFieldValues fuel rest intOnly v r.2)

/-- Every field key, seen as a literal type, against a common key type
(the record-into-map rule). -/
def assertSubFieldKeys : Nat → List (KeyV × SlotV) → TV → ContextV →
    Except String Unit × ContextV
  | 0, _, _, ctx => (.error "fuel exhausted", ctx)
  | _ + 1, [], _, ctx => (.ok (), ctx)
  | fuel + 1, (k, _) :: rest, kt, ctx =>
    let kv := match k with | .intK v => TV.Int v | .strK s => TV.Str s
    let r := assertSubTV fuel kv kt ctx
    match r.1 with
    | .error msg => (.error msg, r.2)
    | .ok _ => assertSubFieldKeys fuel rest kt r.2

/-- Modelled from the spec: slot subtyping respecting flexibility
(section 4.2: `Const` allows covariance, the other flexibilities require
invariance; the mark propagation of `Currently` belongs to the missing
ty/mod.rs and is strengthened to invariance here). -/
def assertSubSlots : Nat → SlotV → SlotV → ContextV → Except String Unit × ContextV
  | 0, _, _, ctx => (.error "fuel exhausted", ctx)
  | fuel + 1, a, b, ctx =>
    match b.flex with
    | .const => assertSubTV fuel a.ty b.ty ctx
    | _ =>
      let r := assertSubTV fuel a.ty b.ty ctx
      match r.1 with
      | .error e => (.error e, r.2)
      | .ok _ => assertSubTV fuel b.ty a.ty r.2

/-- Modelled from the spec: subtyping of overloaded function sets
(section 4.2: an intersection on the left needs some member below, one on
the right needs all members above). -/
def assertSubFunctions : Nat → FunctionsV → FunctionsV → ContextV →
    Except String Unit × ContextV
  | 0, _, _, ctx => (.error "fuel exhausted", ctx)
  | fuel + 1, a, b, ctx =>
    match a, b with
    | .noneF, _ => (.ok (), ctx)
    | _, .allF => (.ok (), ctx)
    | .allF, _ => (.error "not a subtype", ctx)
    | fa, fb => assertSubFnAll fuel fa.toListF fb.toListF ctx

def assertSubFnAll : Nat → List FunctionV → List FunctionV → ContextV →
    Except String Unit × ContextV
  | 0, _, _, ctx => (.error "fuel exhausted", ctx)
  | _ + 1, _, [], ctx => (.ok (), ctx)
  | fuel + 1, al, g :: rest, ctx =>
    let r := assertSubFnSome fuel al g ctx
    match r.1 with
    | .error e => (.error e, r.2)
    | .ok _ => assertSubFnAll fuel al rest r.2

def assertSubFnSome : Nat → List FunctionV → FunctionV → ContextV →
    Except String Unit × ContextV
  | 0, _, _, ctx => (.error "fuel exhausted", ctx)
  | _ + 1, [], _, ctx => (.error "not a subtype", ctx)
  | fuel + 1, f :: rest, g, ctx =>
    let r := assertSubFnV fuel f g ctx
    match r.1 with
    | .ok _ => (.ok (), r.2)
    | .error _ => assertSubFnSome fuel rest g r.2

/-- Contravariant arguments, covariant returns. -/
def assertSubFnV : Nat → FunctionV → FunctionV → ContextV →
    Except String Unit × ContextV
  | 0, _, _, ctx => (.error "fuel exhausted", ctx)
  | fuel + 1, .mk args rets, .mk args' rets', ctx =>
    let r := assertSubSeq fuel args' args ctx
    match r.1 with
    | .error e => (.error e, r.2)
    | .ok _ => assertSubSeq fuel rets rets' r.2

/-- Modelled from the spec: pointwise `TySeq` subtyping (equal arity with
matching tails). -/
def assertSubSeq : Nat → TySeqV → TySeqV → ContextV → Except String Unit × ContextV
  | 0, _, _, ctx => (.error "fuel exhausted", ctx)
  | fuel + 1, .mk h t, .mk h' t', ctx =>
    if h.length ≠ h'.length then (.error "not a subtype", ctx)
    else
      let r := assertSubZip fuel (h.zip h') ctx
      match r.1 with
      | .error e => (.error e, r.2)
      | .ok _ =>
        match t, t' with
        | Option.none, Option.none => (.ok (), r.2)
        | some x, some y => assertSubTV fuel x y r.2
        | _, _ => (.error "not a subtype", r.2)

def assertSubZip : Nat → List (TV × TV) → ContextV → Except String Unit × ContextV
  | 0, _, ctx => (.error "fuel exhausted", ctx)
  | _ + 1, [], ctx => (.ok (), ctx)
  | fuel + 1, (x, y) :: rest, ctx =>
    let r := assertSubTV fuel x y ctx
    match r.1 with
    | .error e => (.error e, r.2)
    | .ok _ => assertSubZip fuel rest r.2

/-- `Context::assert_tvar_sub` (env.rs) at this generation's types: the
cross-store checks recurse into `assert_sub`. -/
def ctxAssertTvarSub : Nat → ContextV → Nat → TV → Except String Unit × ContextV
  | 0, ctx, _, _ => (.error "fuel exhausted", ctx)
  | fuel + 1, ctx, lhs, rhs =>
    let r := ctx.tvarSub.addBound beqTV isBoundTrivialV lhs rhs
    let ctx := { ctx with tvarSub := r.2 }
    match r.1 with
    | .error e => (.error e, ctx)
    | .ok _ =>
      let g1 := ctx.tvarEq.getBound lhs
      let ctx := { ctx with tvarEq := g1.2 }
      let s1 : Except String Unit × ContextV :=
        match g1.1 with
        | some eb => assertSubTV fuel eb rhs ctx
        | none => (.ok (), ctx)
      match s1.1 with
      | .error e => (.error e, s1.2)
      | .ok _ =>
        let ctx := s1.2
        let g2 := ctx.tvarSup.getBound lhs
        let ctx := { ctx with tvarSup := g2.2 }
        match g2.1 with
        | some lb => assertSubTV fuel lb rhs ctx
        | none => (.ok (), ctx)

/-- `Context::assert_tvar_sup` (env.rs) at this generation's types. -/
def ctxAssertTvarSup : Nat → ContextV → Nat → TV → Except String Unit × ContextV
  | 0, ctx, _, _ => (.error "fuel exhausted", ctx)
  | fuel + 1, ctx, lhs, rhs =>
    let r := ctx.tvarSup.addBound beqTV isBoundTrivialV lhs rhs
    let ctx := { ctx with tvarSup := r.2 }
    match r.1 with
    | .error e => (.error e, ctx)
    | .ok _ =>
      let g1 := ctx.tvarEq.getBound lhs
      let ctx := { ctx with tvarEq := g1.2 }
      let s1 : Except String Unit × ContextV :=
        match g1.1 with
        | some eb => assertSubTV fuel rhs eb ctx
        | none => (.ok (), ctx)
      match s1.1 with
      | .error e => (.error e, s1.2)
      | .ok _ =>
        let ctx := s1.2
        let g2 := ctx.tvarSub.getBound lhs
        let ctx := { ctx with tvarSub := g2.2 }
        match g2.1 with
        | some ub => assertSubTV fuel rhs ub ctx
        | none => (.ok (), ctx)

end

/-! ## Claim C5: `Dynamic` and `Top` absorb unions -/

/-- In `T::union` (ty/value.rs), `Dynamic(dyn)` on the left eclipses any
right operand: the `Builtin` wrappers are unwrapped first, two `Dynamic`s
merge their `Dyn` tags, and every other right operand yields the left
`Dynamic` back. -/
theorem unionTV_dyn_left : ∀ (fuel : Nat) (x : TV) (d : Dyn) (ctx : ContextV),
    x.builtinDepth < fuel →
    ∃ d', unionTV fuel (TV.Dynamic d) x ctx = (TV.Dynamic d', ctx) := by
  intro fuel
  induction fuel with
  | zero => intro x d ctx h; exact absurd h (Nat.not_lt_zero _)
  | succ n ih =>
    intro x d ctx h
    cases x
    case Builtin b t =>
      have hd : t.builtinDepth < n := by
        simpa [TV.builtinDepth] using h
      exact ih t d ctx hd
    case Dynamic d2 => exact ⟨d.unionD d2, rfl⟩
    all_goals exact ⟨d, rfl⟩

/-- Symmetric version: `Dynamic` on the right also eclipses the union. -/
theorem unionTV_dyn_right : ∀ (fuel : Nat) (x : TV) (d : Dyn) (ctx : ContextV),
    x.builtinDepth < fuel →
    ∃ d', unionTV fuel x (TV.Dynamic d) ctx = (TV.Dynamic d', ctx) := by
  intro fuel
  induction fuel with
  | zero => intro x d ctx h; exact absurd h (Nat.not_lt_zero _)
  | succ n ih =>
    intro x d ctx h
    cases x
    case Builtin b t =>
      have hd : t.builtinDepth < n := by
        simpa [TV.builtinDepth] using h
      exact ih t d ctx hd
    case Dynamic d2 => exact ⟨d2.unionD d, rfl⟩
    all_goals exact ⟨d, rfl⟩

/-- `All` (Top) on the left absorbs every non-`Dynamic` operand. -/
theorem unionTV_top_left : ∀ (fuel : Nat) (x : TV) (ctx : ContextV),
    x.builtinDepth < fuel → x.getDyn = none →
    unionTV fuel TV.All x ctx = (TV.All, ctx) := by
  intro fuel
  induction fuel with
  | zero => intro x ctx h _; exact absurd h (Nat.not_lt_zero _)
  | succ n ih =>
    intro x ctx h hd
    cases x
    case Builtin b t =>
      have h1 : t.builtinDepth < n := by
        simpa [TV.builtinDepth] using h
      have h2 : TV.getDyn t = none := by
        simpa [TV.getDyn] using hd
      exact ih t ctx h1 h2
    case Dynamic d2 => simp [TV.getDyn] at hd
    all_goals exact rfl

/-- `All` (Top) on the right absorbs every non-`Dynamic` operand. -/
theorem unionTV_top_right : ∀ (fuel : Nat) (x : TV) (ctx : ContextV),
    x.builtinDepth < fuel → x.getDyn = none →
    unionTV fuel x TV.All ctx = (TV.All, ctx) := by
  intro fuel
  induction fuel with
  | zero => intro x ctx h _; exact absurd h (Nat.not_lt_zero _)
  | succ n ih =>
    intro x ctx h hd
    cases x
    case Builtin b t =>
      have h1 : t.builtinDepth < n := by
        simpa [TV.builtinDepth] using h
      have h2 : TV.getDyn t = none := by
        simpa [TV.getDyn] using hd
      exact ih t ctx h1 h2
    case Dynamic d2 => simp [TV.getDyn] at hd
    all_goals exact rfl

/-- Claim C5: in `T::union` (ty/value.rs 562-622) the union of `Dynamic`
with any `X`, in either order, is again `Dynamic` (with the merged `Dyn`
tag when both sides are dynamic), and the union of `All` (Top) with any
`X` that is not dynamic (even under `Builtin` wrappers: `getDyn X = none`)
is `All`, in either order.  The fuel bounds the `Builtin`-unwrapping
depth of the other operand. -/
theorem c5_dynamic_top_union :
    (∀ (x : TV) (d : Dyn) (ctx : ContextV) (fuel : Nat), x.builtinDepth < fuel →
       ∃ d', unionTV fuel (TV.Dynamic d) x ctx = (TV.Dynamic d', ctx)) ∧
    (∀ (x : TV) (d : Dyn) (ctx : ContextV) (fuel : Nat), x.builtinDepth < fuel →
       ∃ d', unionTV fuel x (TV.Dynamic d) ctx = (TV.Dynamic d', ctx)) ∧
    (∀ (x : TV) (ctx : ContextV) (fuel : Nat), x.builtinDepth < fuel → x.getDyn = none →
       unionTV fuel TV.All x ctx = (TV.All, ctx)) ∧
    (∀ (x : TV) (ctx : ContextV) (fuel : Nat), x.builtinDepth < fuel → x.getDyn = none →
       unionTV fuel x TV.All ctx = (TV.All, ctx)) :=
  ⟨fun x d ctx fuel h => unionTV_dyn_left fuel x d ctx h,
   fun x d ctx fuel h => unionTV_dyn_right fuel x d ctx h,
   fun x ctx fuel h hd => unionTV_top_left fuel x ctx h hd,
   fun x ctx fuel h hd => unionTV_top_right fuel x ctx h hd⟩

/-- Witness for C5 at concrete operands. -/
theorem c5_dynamic_top_union_witness :
    (∃ d', unionTV 1 (TV.Dynamic Dyn.User) TV.Nil ContextV.new = (TV.Dynamic d', ContextV.new)) ∧
    (∃ d', unionTV 1 TV.Integer (TV.Dynamic Dyn.Oops) ContextV.new = (TV.Dynamic d', ContextV.new)) ∧
    unionTV 1 TV.All TV.Boolean ContextV.new = (TV.All, ContextV.new) ∧
    unionTV 1 TV.Thread TV.All ContextV.new = (TV.All, ContextV.new) :=
  ⟨c5_dynamic_top_union.1 TV.Nil Dyn.User ContextV.new 1 (by decide),
   c5_dynamic_top_union.2.1 TV.Integer Dyn.Oops ContextV.new 1 (by decide),
   c5_dynamic_top_union.2.2.1 TV.Boolean ContextV.new 1 (by decide) rfl,
   c5_dynamic_top_union.2.2.2 TV.Thread ContextV.new 1 (by decide) rfl⟩

/-! ## Claim C8: unions against a tvar right-hand side -/

/-- The union `nil | tvar 0`: its `tvar` field is `some 0`, so the guard
`a.tvar.is_none()` in `T::assert_sub` fails and the union is distributed
componentwise rather than sent whole to the rhs tvar's sup bound. -/
def c8u0 : UnionedV :=
  .mk ⟨true, false, false, false, false⟩ none none none none [] (some 0)

def c8run := assertSubTV 6 (TV.Union c8u0) (TV.TVar 1) ContextV.new

/-- Claim C8: counterexample.  For the union `nil | tvar 0` (which
contains a type variable) checked against `tvar 1`, the claim says the
whole union is recorded intact as tvar 1's sup bound.  In the code the
guard on the `(Union, TVar)` arm is `a.tvar.is_none()`, so this union is
instead distributed: `nil <: tvar 1` stores `nil`, then
`tvar 0 <: tvar 1` runs `add_relation` on the sup store, which drops the
stored `nil` bound.  The check returns Ok and tvar 1's final sup bound is
`none`, not the union. -/
theorem c8_counterexample :
    c8run.1 = .ok () ∧
    (c8run.2.tvarSup.getBound 1).1 = none ∧
    (c8run.2.tvarSup.getBound 1).1 ≠ some (TV.Union c8u0) := by
  refine ⟨rfl, rfl, ?_⟩
  intro h
  rw [show (c8run.2.tvarSup.getBound 1).1 = none from rfl] at h
  cases h

set_option maxHeartbeats 2000000 in
/-- Claim C8 (amended): it is the unions *without* a type variable that
are sent whole to the rhs tvar's sup bound: if `u.tvar = none` and `b` is
fresh in all three constraint stores, `assert_sub (Union u) (TVar b)`
succeeds and stores exactly `Union u` as `b`'s sup bound (a union that
does contain a tvar is distributed componentwise instead, as the
counterexample shows). -/
theorem c8_amended (u : UnionedV) (b : Nat) (ctx : ContextV) (fuel : Nat)
    (htv : u.tvar = none)
    (hsub : ufLookup ctx.tvarSub.bounds b = none)
    (hsup : ufLookup ctx.tvarSup.bounds b = none)
    (heq : ufLookup ctx.tvarEq.bounds b = none) :
    assertSubTV (fuel + 2) (TV.Union u) (TV.TVar b) ctx =
      (.ok (), { ctx with tvarSup :=
        { ctx.tvarSup with bounds := ufSet ctx.tvarSup.bounds b ⟨b, 0, some (TV.Union u)⟩ } }) ∧
    ((({ ctx with tvarSup :=
        { ctx.tvarSup with bounds := ufSet ctx.tvarSup.bounds b ⟨b, 0, some (TV.Union u)⟩ } } :
        ContextV).tvarSup.getBound b).1 = some (TV.Union u)) := by
  constructor
  · have e1 := addBound_fresh beqTV isBoundTrivialV ctx.tvarSup b (TV.Union u) hsup rfl
    have step : assertSubTV (fuel + 2) (TV.Union u) (TV.TVar b) ctx =
        (if u.tvar.isNone then ctxAssertTvarSup (fuel + 1) ctx b (TV.Union u)
         else assertSubListTV (fuel + 1) u.componentsV (TV.TVar b) ctx) := rfl
    rw [step, htv]
    simp only [Option.isNone_none, if_true]
    simp only [ctxAssertTvarSup]
    rw [e1]
    simp [getBound_fresh _ _ heq, getBound_fresh _ _ hsub]
  · have h2 := getBound_rooted
      { ctx.tvarSup with bounds := ufSet ctx.tvarSup.bounds b ⟨b, 0, some (TV.Union u)⟩ }
      b ⟨b, 0, some (TV.Union u)⟩ (ufLookup_ufSet_self _ _ _) rfl
    simp only [h2]

/-- The tvar-free union `nil | true`, used to witness the amended C8. -/
def c8u1 : UnionedV :=
  .mk ⟨true, true, false, false, false⟩ none none none none [] none

/-- Witness for the amended C8 at the tvar-free union `nil | true`
against the fresh tvar 0 in the empty context. -/
theorem c8_amended_witness :
    UnionedV.tvar c8u1 = none ∧
    assertSubTV 2 (TV.Union c8u1) (TV.TVar 0) ContextV.new =
      (.ok (), { ContextV.new with tvarSup :=
        { ContextV.new.tvarSup with
          bounds := ufSet ContextV.new.tvarSup.bounds 0 ⟨0, 0, some (TV.Union c8u1)⟩ } }) :=
  ⟨rfl, (c8_amended c8u1 0 ContextV.new 0 rfl rfl rfl rfl).1⟩

/-! ## Claim C9: invariants of the union-find -/

/-- Non-self parent pointers always target a present index. -/
def ClosedInv (m : UFMap α) : Prop :=
  ∀ i b, ufLookup m i = some b → b.parent ≠ i → ∃ b', ufLookup m b.parent = some b'

/-- Ranks strictly increase along non-self parent pointers. -/
def RankInv (m : UFMap α) : Prop :=
  ∀ i b, ufLookup m i = some b → b.parent ≠ i →
    ∀ b', ufLookup m b.parent = some b' → b.rank < b'.rank

/-- The claimed invariant: a non-root element's stored bound is `None`. -/
def BoundInv (m : UFMap (Option τ)) : Prop :=
  ∀ i b, ufLookup m i = some b → b.parent ≠ i → b.payload = none

/-- `i` is a representative: absent from the map or its own parent. -/
def IsRoot (m : UFMap α) (i : Nat) : Prop :=
  ∀ b, ufLookup m i = some b → b.parent = i

/-- The three invariants that every reachable store satisfies. -/
def UFInv (m : UFMap (Option τ)) : Prop := ClosedInv m ∧ RankInv m ∧ BoundInv m

theorem ufLookup_ufSet (m : UFMap α) (i : Nat) (b : PNode α) (j : Nat) :
    ufLookup (ufSet m i b) j = if j = i then some b else ufLookup m j := by
  induction m with
  | nil =>
    by_cases h : j = i
    · subst h; simp [ufSet, ufLookup, List.find?]
    · have h1 : (i == j) = false := by
        simp only [beq_eq_false_iff_ne]; exact fun hh => h hh.symm
      simp [ufSet, ufLookup, List.find?, h1, h]
  | cons e rest ih =>
    by_cases he : e.1 = i
    · subst he
      simp only [ufSet, if_pos rfl]
      by_cases h : j = e.1
      · subst h; simp [ufLookup, List.find?]
      · have h1 : (e.1 == j) = false := by
          simp only [beq_eq_false_iff_ne]; exact fun hh => h hh.symm
        simp [ufLookup, List.find?, h1, h]
    · simp only [ufSet, if_neg he]
      by_cases hj : e.1 = j
      · have h2 : j ≠ i := fun hh => he (hj.trans hh)
        have h1 : (e.1 == j) = true := by simpa using hj
        simp [ufLookup, List.find?, h1, h2]
      · have h1 : (e.1 == j) = false := by simpa using hj
        simp only [ufLookup, List.find?, h1, cond_false]
        simpa [ufLookup] using ih

theorem rank_le_ufMaxRank (m : UFMap α) (i : Nat) (b : PNode α)
    (h : ufLookup m i = some b) : b.rank ≤ ufMaxRank m := by
  induction m with
  | nil => simp [ufLookup, List.find?] at h
  | cons e rest ih =>
    rcases hc : (e.1 == i) with _ | _
    · simp only [ufLookup, List.find?, hc, cond_false] at h
      have hr : b.rank ≤ ufMaxRank rest := ih (by simpa [ufLookup] using h)
      have hm : ufMaxRank (e :: rest) = max e.2.rank (ufMaxRank rest) := rfl
      rw [hm]; exact le_trans hr (le_max_right _ _)
    · simp only [ufLookup, List.find?, hc, cond_true] at h
      have hb : b = e.2 := by cases h; rfl
      have hm : ufMaxRank (e :: rest) = max e.2.rank (ufMaxRank rest) := rfl
      rw [hb, hm]; exact le_max_left _ _

/-- Under `RankInv`, a walk with enough fuel ends at a representative:
the rank strictly increases at each step, so `ufMaxRank m < fuel + rank`
guarantees the chain is exhausted before the fuel. -/
theorem ufWalk_isRoot_aux (m : UFMap α) (hR : RankInv m) :
    ∀ fuel p, (∀ b, ufLookup m p = some b → ufMaxRank m < fuel + b.rank) →
      IsRoot m (ufWalk m fuel p) := by
  intro fuel
  induction fuel with
  | zero =>
    intro p hp b hb
    have h1 := hp b hb
    have h2 := rank_le_ufMaxRank m p b hb
    omega
  | succ n ih =>
    intro p hp
    cases hl : ufLookup m p with
    | none =>
      rw [show ufWalk m (n + 1) p = p by simp [ufWalk, hl]]
      intro b hb
      rw [hl] at hb; cases hb
    | some b =>
      by_cases hpar : b.parent = p
      · rw [show ufWalk m (n + 1) p = p by simp [ufWalk, hl, hpar]]
        intro b' hb'
        rw [hl] at hb'; cases hb'; exact hpar
      · rw [show ufWalk m (n + 1) p = ufWalk m n b.parent by simp [ufWalk, hl, hpar]]
        apply ih
        intro b' hb'
        have hlt := hR p b hl hpar b' hb'
        have := hp b hl
        omega

/-- With the fuel used by `find`, the walk always reaches a representative. -/
theorem ufWalk_isRoot (m : UFMap α) (hR : RankInv m) (p : Nat) :
    IsRoot m (ufWalk m (ufMaxRank m + 2) p) := by
  apply ufWalk_isRoot_aux m hR
  intro b _
  omega

/-- The rank never decreases along a walk. -/
theorem ufWalk_rank_ge (m : UFMap α) (hR : RankInv m) :
    ∀ fuel p bp, ufLookup m p = some bp →
      ∀ br, ufLookup m (ufWalk m fuel p) = some br → bp.rank ≤ br.rank := by
  intro fuel
  induction fuel with
  | zero =>
    intro p bp hp br hbr
    rw [show ufWalk m 0 p = p from rfl, hp] at hbr
    cases hbr; exact le_refl _
  | succ n ih =>
    intro p bp hp br hbr
    by_cases hpar : bp.parent = p
    · rw [show ufWalk m (n + 1) p = p by simp [ufWalk, hp, hpar], hp] at hbr
      cases hbr; exact le_refl _
    · rw [show ufWalk m (n + 1) p = ufWalk m n bp.parent by simp [ufWalk, hp, hpar]] at hbr
      cases hq : ufLookup m bp.parent with
      | none =>
        rw [show ufWalk m n bp.parent = bp.parent by
              cases n <;> simp [ufWalk, hq], hq] at hbr
        cases hbr
      | some bq =>
        have h1 := hR p bp hp hpar bq hq
        have h2 := ih bp.parent bq hq br hbr
        omega

/-- A walk from a present index ends at a present index, provided all
parent pointers are present (`ClosedInv`). -/
theorem ufWalk_present (m : UFMap α) (hC : ClosedInv m) :
    ∀ fuel p, (∃ b, ufLookup m p = some b) →
      ∃ b', ufLookup m (ufWalk m fuel p) = some b' := by
  intro fuel
  induction fuel with
  | zero => intro p hp; exact hp
  | succ n ih =>
    intro p hp
    obtain ⟨b, hb⟩ := hp
    by_cases hpar : b.parent = p
    · rw [show ufWalk m (n + 1) p = p by simp [ufWalk, hb, hpar]]
      exact ⟨b, hb⟩
    · rw [show ufWalk m (n + 1) p = ufWalk m n b.parent by simp [ufWalk, hb, hpar]]
      exact ih b.parent (hC p b hb hpar)

/-- `find` either returns the argument unchanged (already a
representative) or compresses the start node's parent to the walked
root. -/
theorem ufFind_cases (m : UFMap α) (i : Nat) :
    (ufFind m i = (i, m) ∧ IsRoot m i) ∨
    (∃ b, ufLookup m i = some b ∧ b.parent ≠ i ∧
      ufFind m i = (ufWalk m (ufMaxRank m + 2) b.parent,
        ufSet m i { b with parent := ufWalk m (ufMaxRank m + 2) b.parent })) := by
  cases h : ufLookup m i with
  | none =>
    left
    constructor
    · simp [ufFind, h]
    · intro b hb; rw [h] at hb; cases hb
  | some b =>
    by_cases hp : b.parent = i
    · left
      constructor
      · simp [ufFind, h, hp]
      · intro b' hb'; rw [h] at hb'; cases hb'; exact hp
    · right
      refine ⟨b, rfl, hp, ?_⟩
      simp [ufFind, h, hp]

theorem ufFind_of_isRoot (m : UFMap α) (i : Nat) (h : IsRoot m i) :
    ufFind m i = (i, m) := by
  cases hl : ufLookup m i with
  | none => simp [ufFind, hl]
  | some b => simp [ufFind, hl, h b hl]

/-- Compression does not change which indices are present, nor their
ranks and payloads. -/
theorem ufFind_entry (m : UFMap α) (i j : Nat) :
    (ufLookup (ufFind m i).2 j).map (fun c => (c.rank, c.payload)) =
      (ufLookup m j).map (fun c => (c.rank, c.payload)) := by
  rcases ufFind_cases m i with ⟨he, _⟩ | ⟨b, hb, hp, he⟩
  · rw [he]
  · rw [he]
    by_cases hj : j = i
    · subst hj; rw [ufLookup_ufSet, if_pos rfl, hb]; rfl
    · rw [ufLookup_ufSet, if_neg hj]

theorem ufFind_lookup_other (m : UFMap α) (i j : Nat) (h : j ≠ i) :
    ufLookup (ufFind m i).2 j = ufLookup m j := by
  rcases ufFind_cases m i with ⟨he, _⟩ | ⟨b, hb, hp, he⟩
  · rw [he]
  · rw [he]; rw [ufLookup_ufSet, if_neg h]

theorem ufFind_preserves_isRoot (m : UFMap α) (i j : Nat) (hj : IsRoot m j) :
    IsRoot (ufFind m i).2 j := by
  rcases ufFind_cases m i with ⟨he, _⟩ | ⟨b, hb, hp, he⟩
  · rw [he]; exact hj
  · rw [he]
    intro c hc
    rw [ufLookup_ufSet] at hc
    by_cases hij : j = i
    · subst hij
      exact absurd (hj b hb) hp
    · rw [if_neg hij] at hc
      exact hj c hc

/-- The result of `find` is a representative of the returned map. -/
theorem ufFind_isRoot (m : UFMap α) (i : Nat) (hR : RankInv m) :
    IsRoot (ufFind m i).2 (ufFind m i).1 := by
  rcases ufFind_cases m i with ⟨he, hroot⟩ | ⟨b, hb, hp, he⟩
  · rw [he]; exact hroot
  · rw [he]
    intro c hc
    rw [ufLookup_ufSet] at hc
    by_cases hri : ufWalk m (ufMaxRank m + 2) b.parent = i
    · rw [if_pos hri] at hc
      cases hc
      exact rfl
    · rw [if_neg hri] at hc
      exact ufWalk_isRoot m hR b.parent c hc

theorem ufFind_closed (m : UFMap α) (i : Nat) (hC : ClosedInv m) (hR : RankInv m) :
    ClosedInv (ufFind m i).2 := by
  rcases ufFind_cases m i with ⟨he, _⟩ | ⟨b, hb, hp, he⟩
  · rw [he]; exact hC
  · rw [he]
    set r := ufWalk m (ufMaxRank m + 2) b.parent with hr
    intro j c hc hne
    rw [ufLookup_ufSet] at hc
    by_cases hj : j = i
    · subst hj
      rw [if_pos rfl] at hc
      cases hc
      have hrne : r ≠ j := hne
      obtain ⟨b1, hb1⟩ := hC j b hb hp
      obtain ⟨br, hbr⟩ := ufWalk_present m hC (ufMaxRank m + 2) b.parent ⟨b1, hb1⟩
      exact ⟨br, by rw [ufLookup_ufSet, if_neg hrne]; exact hbr⟩
    · rw [if_neg hj] at hc
      obtain ⟨b', hb'⟩ := hC j c hc hne
      by_cases hpi : c.parent = i
      · exact ⟨{ b with parent := r }, by rw [ufLookup_ufSet, if_pos hpi]⟩
      · exact ⟨b', by rw [ufLookup_ufSet, if_neg hpi]; exact hb'⟩

theorem ufFind_rank (m : UFMap α) (i : Nat) (hR : RankInv m) :
    RankInv (ufFind m i).2 := by
  rcases ufFind_cases m i with ⟨he, _⟩ | ⟨b, hb, hp, he⟩
  · rw [he]; exact hR
  · rw [he]
    set r := ufWalk m (ufMaxRank m + 2) b.parent with hr
    intro j c hc hne c' hc'
    rw [ufLookup_ufSet] at hc hc'
    by_cases hj : j = i
    · subst hj
      rw [if_pos rfl] at hc
      cases hc
      have hrne : r ≠ j := hne
      rw [if_neg hrne] at hc'
      cases hq : ufLookup m b.parent with
      | none =>
        rw [show r = b.parent by rw [hr]; cases h2 : ufMaxRank m + 2 <;>
              simp [ufWalk, hq], hq] at hc'
        cases hc'
      | some bq =>
        have h1 := hR j b hb hp bq hq
        have h2 := ufWalk_rank_ge m hR (ufMaxRank m + 2) b.parent bq hq c' (by rw [← hr]; exact hc')
        simp only []
        omega
    · rw [if_neg hj] at hc
      by_cases hpi : c.parent = i
      · rw [if_pos hpi] at hc'
        cases hc'
        have := hR j c hc hne b (hpi ▸ hb)
        simpa using this
      · rw [if_neg hpi] at hc'
        exact hR j c hc hne c' hc'

theorem ufFind_bound (m : UFMap (Option τ)) (i : Nat) (hB : BoundInv m) :
    BoundInv (ufFind m i).2 := by
  rcases ufFind_cases m i with ⟨he, _⟩ | ⟨b, hb, hp, he⟩
  · rw [he]; exact hB
  · rw [he]
    intro j c hc hne
    rw [ufLookup_ufSet] at hc
    by_cases hj : j = i
    · subst hj
      rw [if_pos rfl] at hc
      cases hc
      exact hB j b hb hp
    · rw [if_neg hj] at hc
      exact hB j c hc hne

theorem ufEnsure_of_present (m : UFMap α) (init : α) (i : Nat) (b : PNode α)
    (h : ufLookup m i = some b) : ufEnsure m init i = (b, m) := by
  simp [ufEnsure, h]

theorem ufEnsure_of_absent (m : UFMap α) (init : α) (i : Nat)
    (h : ufLookup m i = none) :
    ufEnsure m init i =
      ({ parent := i, rank := 0, payload := init }, ufSet m i ⟨i, 0, init⟩) := by
  simp [ufEnsure, h]

/-- Inserting a fresh self-parented node preserves the invariants. -/
theorem ufInsertFresh_inv (m : UFMap (Option τ)) (i : Nat) (hI : UFInv m)
    (h : ufLookup m i = none) (p : Option τ) :
    UFInv (ufSet m i ⟨i, 0, p⟩) := by
  obtain ⟨hC, hR, hB⟩ := hI
  refine ⟨?_, ?_, ?_⟩
  · intro j c hc hne
    rw [ufLookup_ufSet] at hc
    by_cases hj : j = i
    · rw [if_pos hj] at hc
      cases hc
      exact absurd hj.symm hne
    · rw [if_neg hj] at hc
      obtain ⟨b', hb'⟩ := hC j c hc hne
      by_cases hpi : c.parent = i
      · rw [hpi] at hb'; rw [hb'] at h; cases h
      · exact ⟨b', by rw [ufLookup_ufSet, if_neg hpi]; exact hb'⟩
  · intro j c hc hne c' hc'
    rw [ufLookup_ufSet] at hc hc'
    by_cases hj : j = i
    · rw [if_pos hj] at hc
      cases hc
      exact absurd hj.symm hne
    · rw [if_neg hj] at hc
      by_cases hpi : c.parent = i
      · obtain ⟨b', hb'⟩ := hC j c hc hne
        rw [hpi] at hb'; rw [hb'] at h; cases h
      · rw [if_neg hpi] at hc'
        exact hR j c hc hne c' hc'
  · intro j c hc hne
    rw [ufLookup_ufSet] at hc
    by_cases hj : j = i
    · rw [if_pos hj] at hc
      cases hc
      exact absurd hj.symm hne
    · rw [if_neg hj] at hc
      exact hB j c hc hne

/-- Rewriting the payload at a representative preserves the invariants. -/
theorem ufSetPayloadRoot_inv (m : UFMap (Option τ)) (i : Nat) (b : PNode (Option τ))
    (hI : UFInv m) (hb : ufLookup m i = some b) (hroot : b.parent = i) (p : Option τ) :
    UFInv (ufSet m i { b with payload := p }) := by
  obtain ⟨hC, hR, hB⟩ := hI
  refine ⟨?_, ?_, ?_⟩
  · intro j c hc hne
    rw [ufLookup_ufSet] at hc
    by_cases hj : j = i
    · rw [if_pos hj] at hc
      cases hc
      exact absurd (hj ▸ hroot) hne
    · rw [if_neg hj] at hc
      obtain ⟨b', hb'⟩ := hC j c hc hne
      by_cases hpi : c.parent = i
      · exact ⟨{ b with payload := p }, by rw [ufLookup_ufSet, if_pos hpi]⟩
      · exact ⟨b', by rw [ufLookup_ufSet, if_neg hpi]; exact hb'⟩
  · intro j c hc hne c' hc'
    rw [ufLookup_ufSet] at hc hc'
    by_cases hj : j = i
    · rw [if_pos hj] at hc
      cases hc
      exact absurd (hj ▸ hroot) hne
    · rw [if_neg hj] at hc
      by_cases hpi : c.parent = i
      · rw [if_pos hpi] at hc'
        cases hc'
        have := hR j c hc hne b (hpi ▸ hb)
        simpa using this
      · rw [if_neg hpi] at hc'
        exact hR j c hc hne c' hc'
  · intro j c hc hne
    rw [ufLookup_ufSet] at hc
    by_cases hj : j = i
    · rw [if_pos hj] at hc
      cases hc
      exact absurd (hj ▸ hroot) hne
    · rw [if_neg hj] at hc
      exact hB j c hc hne

/-- `take_bound` preserves the invariants, keeps representatives, clears
the payload at its argument and touches no other entry. -/
theorem takeBound_inv (m : UFMap (Option τ)) (i : Nat) (hI : UFInv m) :
    UFInv (takeBound m i).2 ∧
    (∀ j, IsRoot m j → IsRoot (takeBound m i).2 j) ∧
    (∀ b, ufLookup (takeBound m i).2 i = some b → b.payload = none) ∧
    (∀ j, j ≠ i → ufLookup (takeBound m i).2 j = ufLookup m j) := by
  cases h : ufLookup m i with
  | none =>
    rw [show takeBound m i = (none, m) by simp [takeBound, h]]
    refine ⟨hI, fun j hj => hj, ?_, fun j _ => rfl⟩
    intro b hb; rw [h] at hb; cases hb
  | some b =>
    have hroot0 : b.parent = i ∨ b.payload = none := by
      by_cases hp : b.parent = i
      · exact Or.inl hp
      · exact Or.inr (hI.2.2 i b h hp)
    rw [show takeBound m i = (b.payload, ufSet m i { b with payload := none })
          by simp [takeBound, h]]
    obtain ⟨hC, hR, hB⟩ := hI
    refine ⟨⟨?_, ?_, ?_⟩, ?_, ?_, ?_⟩
    · intro j c hc hne
      rw [ufLookup_ufSet] at hc
      by_cases hj : j = i
      · rw [if_pos hj] at hc
        cases hc
        obtain ⟨b', hb'⟩ := hC j b (by rw [hj]; exact h) hne
        by_cases hpi : (b.parent : Nat) = i
        · exact ⟨{ b with payload := none }, by rw [ufLookup_ufSet, if_pos hpi]⟩
        · exact ⟨b', by rw [ufLookup_ufSet, if_neg hpi]; exact hb'⟩
      · rw [if_neg hj] at hc
        obtain ⟨b', hb'⟩ := hC j c hc hne
        by_cases hpi : c.parent = i
        · exact ⟨{ b with payload := none }, by rw [ufLookup_ufSet, if_pos hpi]⟩
        · exact ⟨b', by rw [ufLookup_ufSet, if_neg hpi]; exact hb'⟩
    · intro j c hc hne c' hc'
      rw [ufLookup_ufSet] at hc hc'
      by_cases hj : j = i
      · rw [if_pos hj] at hc
        cases hc
        by_cases hpi : (b.parent : Nat) = i
        · exact absurd (hj ▸ hpi) hne
        · rw [if_neg hpi] at hc'
          have := hR i b h hpi c' hc'
          simpa using this
      · rw [if_neg hj] at hc
        by_cases hpi : c.parent = i
        · rw [if_pos hpi] at hc'
          cases hc'
          have := hR j c hc hne b (hpi ▸ h)
          simpa using this
        · rw [if_neg hpi] at hc'
          exact hR j c hc hne c' hc'
    · intro j c hc hne
      rw [ufLookup_ufSet] at hc
      by_cases hj : j = i
      · rw [if_pos hj] at hc
        cases hc
        rfl
      · rw [if_neg hj] at hc
        exact hB j c hc hne
    · intro j hj c hc
      rw [ufLookup_ufSet] at hc
      by_cases hji : j = i
      · rw [if_pos hji] at hc
        cases hc
        have := hj b (hji ▸ h)
        simpa using this
      · rw [if_neg hji] at hc
        exact hj c hc
    · intro c hc
      rw [ufLookup_ufSet, if_pos rfl] at hc
      cases hc
      rfl
    · intro j hj
      rw [ufLookup_ufSet, if_neg hj]

/-- Attaching the root `l` (strictly smaller rank, cleared payload) below
the root `r` preserves the invariants and keeps `r` a representative. -/
theorem ufLink_inv (M : UFMap (Option τ)) (l r : Nat) (bl br : PNode (Option τ))
    (hI : UFInv M) (hne : l ≠ r)
    (hbl : ufLookup M l = some bl) (hblp : bl.parent = l) (hbl0 : bl.payload = none)
    (hbr : ufLookup M r = some br) (hbrp : br.parent = r)
    (hrk : bl.rank < br.rank) :
    UFInv (ufSet M l { bl with parent := r }) ∧
      IsRoot (ufSet M l { bl with parent := r }) r := by
  obtain ⟨hC, hR, hB⟩ := hI
  refine ⟨⟨?_, ?_, ?_⟩, ?_⟩
  · intro j c hc hne2
    rw [ufLookup_ufSet] at hc
    by_cases hj : j = l
    · rw [if_pos hj] at hc
      cases hc
      refine ⟨br, ?_⟩
      rw [ufLookup_ufSet, if_neg (fun hh : (r : Nat) = l => hne hh.symm)]
      exact hbr
    · rw [if_neg hj] at hc
      obtain ⟨b', hb'⟩ := hC j c hc hne2
      by_cases hpi : c.parent = l
      · exact ⟨{ bl with parent := r }, by rw [ufLookup_ufSet, if_pos hpi]⟩
      · exact ⟨b', by rw [ufLookup_ufSet, if_neg hpi]; exact hb'⟩
  · intro j c hc hne2 c' hc'
    rw [ufLookup_ufSet] at hc hc'
    by_cases hj : j = l
    · rw [if_pos hj] at hc
      cases hc
      rw [if_neg (fun hh : (r : Nat) = l => hne hh.symm)] at hc'
      rw [hbr] at hc'
      cases hc'
      simpa using hrk
    · rw [if_neg hj] at hc
      by_cases hpi : c.parent = l
      · rw [if_pos hpi] at hc'
        cases hc'
        have := hR j c hc hne2 bl (hpi ▸ hbl)
        simpa using this
      · rw [if_neg hpi] at hc'
        exact hR j c hc hne2 c' hc'
  · intro j c hc hne2
    rw [ufLookup_ufSet] at hc
    by_cases hj : j = l
    · rw [if_pos hj] at hc
      cases hc
      simpa using hbl0
    · rw [if_neg hj] at hc
      exact hB j c hc hne2
  · intro c hc
    rw [ufLookup_ufSet, if_neg (fun hh : (r : Nat) = l => hne hh.symm)] at hc
    rw [hbr] at hc
    cases hc
    exact hbrp

/-- The tie case: `r` (cleared payload) goes below `l`, whose rank is
bumped; `l` stays a representative. -/
theorem ufLinkTie_inv (M : UFMap (Option τ)) (l r : Nat) (bl br : PNode (Option τ))
    (hI : UFInv M) (hne : l ≠ r)
    (hbl : ufLookup M l = some bl) (hblp : bl.parent = l)
    (hbr : ufLookup M r = some br) (hbrp : br.parent = r) (hbr0 : br.payload = none)
    (hrk : br.rank ≤ bl.rank) :
    UFInv (ufSet (ufSet M r { br with parent := l }) l { bl with rank := bl.rank + 1 }) ∧
      IsRoot (ufSet (ufSet M r { br with parent := l }) l { bl with rank := bl.rank + 1 }) l := by
  obtain ⟨hC, hR, hB⟩ := hI
  have hlook : ∀ j, ufLookup (ufSet (ufSet M r { br with parent := l }) l
      { bl with rank := bl.rank + 1 }) j =
      if j = l then some { bl with rank := bl.rank + 1 }
      else if j = r then some { br with parent := l }
      else ufLookup M j := by
    intro j
    rw [ufLookup_ufSet, ufLookup_ufSet]
  refine ⟨⟨?_, ?_, ?_⟩, ?_⟩
  · intro j c hc hne2
    rw [hlook] at hc
    by_cases hj : j = l
    · rw [if_pos hj] at hc
      cases hc
      exact absurd (hj ▸ hblp) hne2
    · rw [if_neg hj] at hc
      by_cases hjr : j = r
      · rw [if_pos hjr] at hc
        cases hc
        exact ⟨{ bl with rank := bl.rank + 1 }, by rw [hlook, if_pos rfl]⟩
      · rw [if_neg hjr] at hc
        obtain ⟨b', hb'⟩ := hC j c hc hne2
        by_cases hpl : c.parent = l
        · exact ⟨{ bl with rank := bl.rank + 1 }, by rw [hlook, if_pos hpl]⟩
        · by_cases hpr : c.parent = r
          · exact ⟨{ br with parent := l }, by rw [hlook, if_neg hpl, if_pos hpr]⟩
          · exact ⟨b', by rw [hlook, if_neg hpl, if_neg hpr]; exact hb'⟩
  · intro j c hc hne2 c' hc'
    rw [hlook] at hc hc'
    by_cases hj : j = l
    · rw [if_pos hj] at hc
      cases hc
      exact absurd (hj ▸ hblp) hne2
    · rw [if_neg hj] at hc
      by_cases hjr : j = r
      · rw [if_pos hjr] at hc
        cases hc
        rw [show (({ br with parent := l } : PNode (Option τ)).parent) = l from rfl,
            if_pos rfl] at hc'
        cases hc'
        simp only []
        omega
      · rw [if_neg hjr] at hc
        by_cases hpl : c.parent = l
        · rw [if_pos hpl] at hc'
          cases hc'
          have := hR j c hc hne2 bl (hpl ▸ hbl)
          simp only []
          omega
        · by_cases hpr : c.parent = r
          · rw [if_neg hpl, if_pos hpr] at hc'
            cases hc'
            have := hR j c hc hne2 br (hpr ▸ hbr)
            simpa using this
          · rw [if_neg hpl, if_neg hpr] at hc'
            exact hR j c hc hne2 c' hc'
  · intro j c hc hne2
    rw [hlook] at hc
    by_cases hj : j = l
    · rw [if_pos hj] at hc
      cases hc
      exact absurd (hj ▸ hblp) hne2
    · rw [if_neg hj] at hc
      by_cases hjr : j = r
      · rw [if_pos hjr] at hc
        cases hc
        simpa using hbr0
      · rw [if_neg hjr] at hc
        exact hB j c hc hne2
  · intro c hc
    rw [hlook, if_pos rfl] at hc
    cases hc
    simpa using hblp

/-- The three attach cases of `union`, given two distinct present
representatives with cleared payloads. -/
theorem ufLinkCases_inv (M : UFMap (Option τ)) (l r : Nat) (bl br : PNode (Option τ))
    (hI : UFInv M) (hne : l ≠ r)
    (hbl : ufLookup M l = some bl) (hblp : bl.parent = l) (hbl0 : bl.payload = none)
    (hbr : ufLookup M r = some br) (hbrp : br.parent = r) (hbr0 : br.payload = none)
    (p : Nat × UFMap (Option τ))
    (hp : p = if bl.rank < br.rank then (r, ufSet M l { bl with parent := r })
          else if br.rank < bl.rank then (l, ufSet M r { br with parent := l })
          else (l, ufSet (ufSet M r { br with parent := l }) l { bl with rank := bl.rank + 1 })) :
    UFInv p.2 ∧ IsRoot p.2 p.1 := by
  by_cases h1 : bl.rank < br.rank
  · rw [hp, if_pos h1]
    exact ufLink_inv M l r bl br hI hne hbl hblp hbl0 hbr hbrp h1
  · by_cases h2 : br.rank < bl.rank
    · rw [hp, if_neg h1, if_pos h2]
      exact ufLink_inv M r l br bl hI (Ne.symm hne) hbr hbrp hbr0 hbl hblp h2
    · rw [hp, if_neg h1, if_neg h2]
      exact ufLinkTie_inv M l r bl br hI hne hbl hblp hbr hbrp hbr0 (Nat.le_of_not_lt h1)

/-- `Partitions::union` of two distinct representatives with cleared
payloads preserves the invariants, and its result is a representative of
the returned map. -/
theorem ufUnion_inv (m : UFMap (Option τ)) (l r : Nat)
    (hI : UFInv m) (hl : IsRoot m l) (hr : IsRoot m r)
    (hpl : ∀ b, ufLookup m l = some b → b.payload = none)
    (hpr : ∀ b, ufLookup m r = some b → b.payload = none)
    (hne : l ≠ r) :
    UFInv (ufUnion m none l r).2 ∧
      IsRoot (ufUnion m none l r).2 (ufUnion m none l r).1 := by
  have hfl : ufFind m l = (l, m) := ufFind_of_isRoot m l hl
  have hfr : ufFind m r = (r, m) := ufFind_of_isRoot m r hr
  simp only [ufUnion, hfl, hfr]
  rw [if_neg hne]
  cases hll : ufLookup m l with
  | some bl =>
    rw [ufEnsure_of_present m none l bl hll]
    cases hrr : ufLookup m r with
    | some br =>
      rw [ufEnsure_of_present m none r br hrr]
      exact ufLinkCases_inv m l r bl br hI hne hll (hl bl hll) (hpl bl hll)
        hrr (hr br hrr) (hpr br hrr) _ rfl
    | none =>
      rw [ufEnsure_of_absent m none r hrr]
      have hI1 : UFInv (ufSet m r ⟨r, 0, none⟩) := ufInsertFresh_inv m r hI hrr none
      have hbl1 : ufLookup (ufSet m r ⟨r, 0, none⟩) l = some bl := by
        rw [ufLookup_ufSet, if_neg hne]; exact hll
      have hbr1 : ufLookup (ufSet m r ⟨r, 0, none⟩) r = some ⟨r, 0, none⟩ := by
        rw [ufLookup_ufSet, if_pos rfl]
      exact ufLinkCases_inv _ l r bl ⟨r, 0, none⟩ hI1 hne hbl1 (hl bl hll) (hpl bl hll)
        hbr1 rfl rfl _ rfl
  | none =>
    rw [ufEnsure_of_absent m none l hll]
    have hI1 : UFInv (ufSet m l ⟨l, 0, none⟩) := ufInsertFresh_inv m l hI hll none
    have hbl1 : ufLookup (ufSet m l ⟨l, 0, none⟩) l = some ⟨l, 0, none⟩ := by
      rw [ufLookup_ufSet, if_pos rfl]
    cases hrr : ufLookup m r with
    | some br =>
      have hrr1 : ufLookup (ufSet m l ⟨l, 0, none⟩) r = some br := by
        rw [ufLookup_ufSet, if_neg (Ne.symm hne)]; exact hrr
      rw [ufEnsure_of_present _ none r br hrr1]
      exact ufLinkCases_inv _ l r ⟨l, 0, none⟩ br hI1 hne hbl1 rfl rfl
        hrr1 (hr br hrr) (hpr br hrr) _ rfl
    | none =>
      have hrr1 : ufLookup (ufSet m l ⟨l, 0, none⟩) r = none := by
        rw [ufLookup_ufSet, if_neg (Ne.symm hne)]; exact hrr
      rw [ufEnsure_of_absent _ none r hrr1]
      have hI2 : UFInv (ufSet (ufSet m l ⟨l, 0, none⟩) r ⟨r, 0, none⟩) :=
        ufInsertFresh_inv _ r hI1 hrr1 none
      have hbl2 : ufLookup (ufSet (ufSet m l ⟨l, 0, none⟩) r ⟨r, 0, none⟩) l =
          some ⟨l, 0, none⟩ := by
        rw [ufLookup_ufSet, if_neg hne]; exact hbl1
      have hbr2 : ufLookup (ufSet (ufSet m l ⟨l, 0, none⟩) r ⟨r, 0, none⟩) r =
          some ⟨r, 0, none⟩ := by
        rw [ufLookup_ufSet, if_pos rfl]
      exact ufLinkCases_inv _ l r ⟨l, 0, none⟩ ⟨r, 0, none⟩ hI2 hne hbl2 rfl rfl
        hbr2 rfl rfl _ rfl

/-- `add_bound` preserves the union-find invariants. -/
theorem addBound_ufInv (beq : τ → τ → Bool) (triv : Option τ → Bool)
    (c : Constraints τ) (lhs : Nat) (t : τ) (hI : UFInv c.bounds) :
    UFInv ((c.addBound beq triv lhs t).2).bounds := by
  obtain ⟨l, m1, hfl⟩ : ∃ l m1, ufFind c.bounds lhs = (l, m1) := ⟨_, _, rfl⟩
  have hI1 : UFInv m1 := by
    have h1 := ufFind_closed c.bounds lhs hI.1 hI.2.1
    have h2 := ufFind_rank c.bounds lhs hI.2.1
    have h3 := ufFind_bound c.bounds lhs hI.2.2
    rw [hfl] at h1 h2 h3
    exact ⟨h1, h2, h3⟩
  have hroot : IsRoot m1 l := by
    have h4 := ufFind_isRoot c.bounds lhs hI.2.1
    rw [hfl] at h4
    exact h4
  simp only [Constraints.addBound, hfl]
  cases he : ufLookup m1 l with
  | some b =>
    rw [ufEnsure_of_present m1 none l b he]
    by_cases ht : triv b.payload = true
    · rw [if_pos ht]
      exact ufSetPayloadRoot_inv m1 l b hI1 he (hroot b he) (some t)
    · rw [if_neg ht]
      split <;> exact hI1
  | none =>
    rw [ufEnsure_of_absent m1 none l he]
    have hI2 : UFInv (ufSet m1 l ⟨l, 0, none⟩) := ufInsertFresh_inv m1 l hI1 he none
    by_cases ht : triv (⟨l, 0, (none : Option τ)⟩ : PNode (Option τ)).payload = true
    · rw [if_pos ht]
      exact ufSetPayloadRoot_inv _ l ⟨l, 0, none⟩ hI2
        (by rw [ufLookup_ufSet, if_pos rfl]) rfl (some t)
    · rw [if_neg ht]
      split <;> exact hI2

/-- The bound-restoring tail of `add_relation` keeps the invariants: the
merged representative is a root of the merged map, so writing the kept
bound there is safe. -/
theorem ufRestoreBound_inv (mu : UFMap (Option τ)) (w : Nat) (bound : Option τ)
    (tb : Bool)
    (hI : UFInv mu) (hw : IsRoot mu w) :
    UFInv (if tb = true then mu
           else match ufLookup mu w with
                | some b => ufSet mu w { b with payload := bound }
                | none => mu) := by
  cases tb with
  | true => rw [if_pos rfl]; exact hI
  | false =>
    rw [if_neg (by decide)]
    cases hlw : ufLookup mu w with
    | none => exact hI
    | some bw => exact ufSetPayloadRoot_inv mu w bw hI hlw (hw bw hlw) bound

/-- `add_relation` preserves the union-find invariants. -/
theorem addRelation_ufInv (beq : τ → τ → Bool) (triv : Option τ → Bool)
    (c : Constraints τ) (lhs rhs : Nat) (hI : UFInv c.bounds) :
    UFInv ((c.addRelation beq triv lhs rhs).2).bounds := by
  by_cases he : lhs = rhs
  · simp only [Constraints.addRelation, if_pos he]
    exact hI
  · obtain ⟨l, m1, hfl⟩ : ∃ l m1, ufFind c.bounds lhs = (l, m1) := ⟨_, _, rfl⟩
    obtain ⟨r, m2, hfr⟩ : ∃ r m2, ufFind m1 rhs = (r, m2) := ⟨_, _, rfl⟩
    have hI1 : UFInv m1 := by
      have h1 := ufFind_closed c.bounds lhs hI.1 hI.2.1
      have h2 := ufFind_rank c.bounds lhs hI.2.1
      have h3 := ufFind_bound c.bounds lhs hI.2.2
      rw [hfl] at h1 h2 h3
      exact ⟨h1, h2, h3⟩
    have hrootl1 : IsRoot m1 l := by
      have h4 := ufFind_isRoot c.bounds lhs hI.2.1
      rw [hfl] at h4
      exact h4
    have hI2 : UFInv m2 := by
      have h1 := ufFind_closed m1 rhs hI1.1 hI1.2.1
      have h2 := ufFind_rank m1 rhs hI1.2.1
      have h3 := ufFind_bound m1 rhs hI1.2.2
      rw [hfr] at h1 h2 h3
      exact ⟨h1, h2, h3⟩
    have hrootl2 : IsRoot m2 l := by
      have h4 := ufFind_preserves_isRoot m1 rhs l hrootl1
      rw [hfr] at h4
      exact h4
    have hrootr2 : IsRoot m2 r := by
      have h4 := ufFind_isRoot m1 rhs hI1.2.1
      rw [hfr] at h4
      exact h4
    simp only [Constraints.addRelation, if_neg he, hfl, hfr]
    by_cases hlr : l = r
    · rw [if_pos hlr]
      exact hI2
    · rw [if_neg hlr]
      obtain ⟨pl, m3, htl⟩ : ∃ a m3, takeBound m2 l = (a, m3) := ⟨_, _, rfl⟩
      obtain ⟨pr, m4, htr⟩ : ∃ a m4, takeBound m3 r = (a, m4) := ⟨_, _, rfl⟩
      have h3 := takeBound_inv m2 l hI2
      rw [htl] at h3
      obtain ⟨hI3, hKeep3, hClr3, hOth3⟩ := h3
      have h4 := takeBound_inv m3 r hI3
      rw [htr] at h4
      obtain ⟨hI4, hKeep4, hClr4, hOth4⟩ := h4
      have hrootl4 : IsRoot m4 l := hKeep4 l (hKeep3 l hrootl2)
      have hrootr4 : IsRoot m4 r := hKeep4 r (hKeep3 r hrootr2)
      have hpl4 : ∀ b, ufLookup m4 l = some b → b.payload = none := by
        intro b hb
        rw [hOth4 l hlr] at hb
        exact hClr3 b hb
      have hpr4 : ∀ b, ufLookup m4 r = some b → b.payload = none := hClr4
      have hu := ufUnion_inv m4 l r hI4 hrootl4 hrootr4 hpl4 hpr4 hlr
      simp only [htl, htr]
      cases htbl : triv pl <;> cases htbr : triv pr
      · exact ufRestoreBound_inv _ _ pr false hu.1 hu.2
      · exact ufRestoreBound_inv _ _ pr true hu.1 hu.2
      · exact ufRestoreBound_inv _ _ pl true hu.1 hu.2
      · by_cases hbeq : beqOptWith beq pl pr = true
        · rw [if_pos hbeq]
          exact ufRestoreBound_inv _ _ pl true hu.1 hu.2
        · rw [if_neg hbeq]
          exact hI4

/-- A mutating client call into a constraint store: the two entry points
`add_bound` and `add_relation`. -/
inductive UFOp (τ : Type) where
  | bound (v : Nat) (t : τ)
  | relation (u v : Nat)

def applyUFOp (beq : τ → τ → Bool) (triv : Option τ → Bool)
    (c : Constraints τ) : UFOp τ → Constraints τ
  | .bound v t => (c.addBound beq triv v t).2
  | .relation u v => (c.addRelation beq triv u v).2

/-- Run a sequence of `add_bound` / `add_relation` calls. -/
def runUFOps (beq : τ → τ → Bool) (triv : Option τ → Bool)
    (c : Constraints τ) : List (UFOp τ) → Constraints τ
  | [] => c
  | op :: rest => runUFOps beq triv (applyUFOp beq triv c op) rest

theorem runUFOps_ufInv (beq : τ → τ → Bool) (triv : Option τ → Bool)
    (c : Constraints τ) (ops : List (UFOp τ)) (hI : UFInv c.bounds) :
    UFInv (runUFOps beq triv c ops).bounds := by
  induction ops generalizing c with
  | nil => exact hI
  | cons op rest ih =>
    cases op with
    | bound v t => exact ih _ (addBound_ufInv beq triv c v t hI)
    | relation u v => exact ih _ (addRelation_ufInv beq triv c u v hI)

theorem ufInv_empty : UFInv ([] : UFMap (Option τ)) := by
  refine ⟨?_, ?_, ?_⟩ <;> intro i b hb <;> cases hb

/-- Claim C9: for every constraints store reachable from the empty store
by any sequence of `add_bound` and `add_relation` calls (over any bound
grammar, equality test and triviality test), every element of the
union-find that is not a root -- its parent is not itself -- has a stored
bound of `None`: bounds live only on representatives. -/
theorem c9_bounds_live_on_roots (τ : Type) (beq : τ → τ → Bool)
    (triv : Option τ → Bool) (op : String) (ops : List (UFOp τ))
    (i : Nat) (b : PNode (Option τ))
    (hb : ufLookup (runUFOps beq triv (Constraints.new τ op) ops).bounds i = some b)
    (hnr : b.parent ≠ i) : b.payload = none := by
  have hI := runUFOps_ufInv beq triv (Constraints.new τ op) ops ufInv_empty
  exact hI.2.2 i b hb hnr

/-- Witness for C9 at the middle-generation grammar: after
`add_bound(0, integer)` and `add_relation(0, 1)`, element 1 is a non-root
(parent 0) and its stored bound is `None`. -/
theorem c9_bounds_live_on_roots_witness :
    ufLookup (runUFOps beqT0 isBoundTrivial0
        (Constraints.new T0 "<:") [UFOp.bound 0 T0.Integer, UFOp.relation 0 1]).bounds 1 =
      some ⟨0, 0, none⟩ ∧
    (⟨0, 0, (none : Option T0)⟩ : PNode (Option T0)).parent ≠ 1 ∧
    (⟨0, 0, (none : Option T0)⟩ : PNode (Option T0)).payload = none :=
  ⟨rfl, by decide,
   c9_bounds_live_on_roots T0 beqT0 isBoundTrivial0 "<:"
     [UFOp.bound 0 T0.Integer, UFOp.relation 0 1] 1 ⟨0, 0, none⟩ rfl (by decide)⟩
